import Mathlib

/-!
Verification of the CI-CD-Analyzer log-ingestion and analysis pipeline.

The definitions below are a shallow embedding of the JavaScript services in
`src/backend/src/services` (logParser.js, failureClassifier.js, aiAnalyzer.js,
ragService.js) and of the worker job handler.  JavaScript regular expressions
are embedded as executable token matchers over character lists; JS `||`
defaulting on possibly-empty strings is embedded explicitly.  Strings are
ASCII in all relevant inputs, so `Char.toLower` agrees with JS `toLowerCase`.
-/

namespace CICD

/-- Character class of JS `\s` (ASCII range; the logs are ASCII). -/
def wsChar (c : Char) : Bool :=
  c = ' ' || c = '\t' || c = '\n' || c = '\r' || c = '\x0b' || c = '\x0c'

/-- Character class of JS `\d`. -/
def digitChar (c : Char) : Bool :=
  '0' ≤ c && c ≤ '9'

/-- Character class of JS `.` (any character except a line terminator). -/
def dotChar (c : Char) : Bool :=
  c ≠ '\n' && c ≠ '\r'

/-- Character class of JS `\S`. -/
def nonWsChar (c : Char) : Bool :=
  !wsChar c

/-- Character class of JS `\w` (word character), used for `\b` boundaries. -/
def wordChar (c : Char) : Bool :=
  digitChar c || ('a' ≤ c && c ≤ 'z') || ('A' ≤ c && c ≤ 'Z') || c = '_'

/-- Lower-case a character list (model of JS `toLowerCase` on ASCII). -/
def lowerL (l : List Char) : List Char :=
  l.map Char.toLower

/-- Lower-case a string (model of JS `toLowerCase` on ASCII). -/
def strLower (s : String) : String :=
  String.mk (lowerL s.data)

/-- One token of an embedded JS regular expression: a case-insensitive
literal (stored lower-case), or a repeated character class with a minimum
and an optional maximum repetition count. -/
inductive Tok where
  | lit (s : List Char)
  | cls (p : Char → Bool) (lo : Nat) (hi : Option Nat)

/-- Does `w` (already lower-case) occur literally, case-insensitively, at the
head of `s`? -/
def litAt (w : List Char) (s : List Char) : Bool :=
  decide (w.length ≤ s.length) && lowerL (s.take w.length) = w

/-- Backtracking matcher: does some split of `s` let the token list match a
prefix, with the continuation `k` accepting the remainder?  This embeds the
JS regex search semantics for the pattern subset used by the repository. -/
def tokMatchRem (toks : List Tok) (s : List Char) (k : List Char → Bool) : Bool :=
  match toks with
  | [] => k s
  | Tok.lit w :: ts => litAt w s && tokMatchRem ts (s.drop w.length) k
  | Tok.cls p lo hi :: ts =>
      let maxi := match hi with
        | some h => min h s.length
        | none => s.length
      (List.range (maxi + 1)).any
        (fun i => decide (lo ≤ i) && (s.take i).all p && tokMatchRem ts (s.drop i) k)

/-- Accept any remainder (an unanchored right end). -/
def anyRem (_ : List Char) : Bool :=
  true

/-- Accept only the empty remainder (a `$` end anchor on a single line). -/
def emptyRem (s : List Char) : Bool :=
  s.isEmpty

/-- Unanchored search (`regex.test`): the tokens match starting at some
position of `s`. -/
def tokSearchL (toks : List Tok) (s : List Char) : Bool :=
  s.tails.any (fun t => tokMatchRem toks t anyRem)

/-- Unanchored search on a string. -/
def tokSearch (toks : List Tok) (s : String) : Bool :=
  tokSearchL toks s.data

/-- Anchored full match (`^...$` on a single line). -/
def tokFull (toks : List Tok) (s : String) : Bool :=
  tokMatchRem toks s.data emptyRem

/-- Search requiring a word boundary `\b` before the match; the continuation
`k` checks the remainder (for a trailing `\b` or a lookahead). -/
def searchBdryGo (toks : List Tok) (k : List Char → Bool) (prev : Option Char) (s : List Char) : Bool :=
  ((match prev with
    | none => true
    | some c => !wordChar c) && tokMatchRem toks s k) ||
  match s with
  | [] => false
  | c :: rest => searchBdryGo toks k (some c) rest

/-- Search for a pattern that begins with `\b`, with `k` checking the
remainder after the match. -/
def searchBdry (toks : List Tok) (k : List Char → Bool) (s : String) : Bool :=
  searchBdryGo toks k none s.data

/-- Remainder check for a trailing `\b`: next character (if any) is not a
word character. -/
def bdryRem (s : List Char) : Bool :=
  match s with
  | [] => true
  | c :: _ => !wordChar c

/-- Remainder check for `\b(?!\.)`: next character is neither a word
character nor a dot. -/
def bdryNotDotRem (s : List Char) : Bool :=
  match s with
  | [] => true
  | c :: _ => !wordChar c && c ≠ '.'

/-- Shorthand: case-insensitive literal token (argument written lower-case). -/
def L (s : String) : Tok :=
  Tok.lit s.data

/-- Shorthand: `\s+`. -/
def wsPlus : Tok :=
  Tok.cls wsChar 1 none

/-- Shorthand: `\s*`. -/
def wsStar : Tok :=
  Tok.cls wsChar 0 none

/-- Shorthand: `\d+`. -/
def digPlus : Tok :=
  Tok.cls digitChar 1 none

/-- Shorthand: `\d*`. -/
def digStar : Tok :=
  Tok.cls digitChar 0 none

/-- Shorthand: `.*` (no line terminators). -/
def dotStar : Tok :=
  Tok.cls dotChar 0 none

/-- Shorthand: `.+` (no line terminators). -/
def dotPlus : Tok :=
  Tok.cls dotChar 1 none

/-- Shorthand: a single character from a class. -/
def one (p : Char → Bool) : Tok :=
  Tok.cls p 1 (some 1)

/-- Shorthand: exactly `n` characters from a class. -/
def exactly (p : Char → Bool) (n : Nat) : Tok :=
  Tok.cls p n (some n)

/-- A JS regex embedded as a disjunction of token sequences (alternations are
expanded), tested by unanchored search. -/
def anyAlt (alts : List (List Tok)) (s : String) : Bool :=
  alts.any (fun a => tokSearch a s)

/-- Model of JS `String.prototype.includes` (case-sensitive substring). -/
def jsIncludes (s : String) (sub : String) : Bool :=
  s.data.tails.any (fun t => sub.data.isPrefixOf t)

/-- Model of JS `a.join(sep)`. -/
def joinWith (sep : String) : List String → String
  | [] => ""
  | [l] => l
  | l :: ls => l ++ sep ++ joinWith sep ls

/-- Model of JS `s.substring(0, n)` (characters; the logs are ASCII). -/
def strTake (n : Nat) (s : String) : String :=
  String.mk (s.data.take n)

/-- JS truthiness for a possibly-absent string (`undefined`, `null` and `''`
are falsy). -/
def truthyStr : Option String → Bool
  | none => false
  | some s => !s.isEmpty

/-- Model of JS `a || b` for string defaulting (`a` wins when truthy). -/
def jsOrStr (a : Option String) (b : String) : String :=
  match a with
  | some s => if s.isEmpty then b else s
  | none => b

/-- Character class `[1-9]`. -/
def nzDigit (c : Char) : Bool :=
  '1' ≤ c && c ≤ '9'

/-- Character class of the first digit of `(4[0-9]{2}|5[0-9]{2})`. -/
def fourFive (c : Char) : Bool :=
  c = '4' || c = '5'

/-- A detected error record, as produced by
`LogParserService.findErrorsInLines` (logParser.js).  `chunkIndex` and
`stepName` are attached later by `detectErrors`; they are absent (`none`)
on freshly created records. -/
structure DetectedError where
  category : String
  errorMessage : String
  confidence : String
  evidenceLogLines : List String
  isIntentionalFailure : Bool := false
  chunkIndex : Option Nat := none
  stepName : Option String := none
deriving DecidableEq, Repr

/-- One entry of the error-pattern catalogue of `findErrorsInLines`. -/
structure ErrorPat where
  category : String
  test : String → Bool
  confidence : String

/-- Embedding of `/^\s*exit\s+[1-9]\d*\s*$/i` (the Exit Failure pattern,
also re-used by the classifier). -/
def exitLineTest (s : String) : Bool :=
  tokFull [wsStar, L "exit", wsPlus, one nzDigit, digStar, wsStar] s

/-- The ordered error-pattern catalogue of `findErrorsInLines`
(logParser.js lines 289-347); first match in catalogue order wins. -/
def errorPatterns : List ErrorPat :=
  [ ⟨"Build Failure", tokSearch [L "build", wsPlus, L "failed"], "high"⟩
  , ⟨"Build Failure", tokSearch [L "compilation", wsPlus, L "error"], "high"⟩
  , ⟨"Build Failure", tokSearch [L "could", wsPlus, L "not", wsPlus, L "compile"], "high"⟩
  , ⟨"Dependency Issue", tokSearch [L "cannot", wsPlus, L "find", wsPlus, L "module"], "high"⟩
  , ⟨"Dependency Issue", tokSearch [L "module", wsPlus, L "not", wsPlus, L "found"], "high"⟩
  , ⟨"Dependency Issue", tokSearch [L "npm", wsPlus, L "err!"], "medium"⟩
  , ⟨"Dependency Issue", tokSearch [L "yarn", wsPlus, L "error"], "medium"⟩
  , ⟨"Dependency Issue", tokSearch [L "eresolve"], "medium"⟩
  , ⟨"Dependency Issue", tokSearch [L "peer", wsPlus, L "dependency"], "medium"⟩
  , ⟨"Dependency Issue", tokSearch [L "enoent", dotStar, L "package.json"], "high"⟩
  , ⟨"Test Failure", tokSearch [L "test", dotStar, L "failed"], "high"⟩
  , ⟨"Test Failure", tokSearch [L "assertion", dotStar, L "failed"], "high"⟩
  , ⟨"Test Failure", tokSearch [L "expected", dotStar, L "but", wsPlus, L "got"], "high"⟩
  , ⟨"Test Failure", tokSearch [digPlus, wsPlus, L "failing"], "high"⟩
  , ⟨"Test Failure", tokSearch [L "assertionerror"], "high"⟩
  , ⟨"Syntax Error", tokSearch [L "syntaxerror"], "high"⟩
  , ⟨"Syntax Error", tokSearch [L "unexpected", wsPlus, L "token"], "high"⟩
  , ⟨"Syntax Error", tokSearch [L "invalid", wsPlus, L "syntax"], "high"⟩
  , ⟨"Runtime Error", tokSearch [L "typeerror"], "high"⟩
  , ⟨"Runtime Error", tokSearch [L "referenceerror"], "high"⟩
  , ⟨"Runtime Error", tokSearch [L "rangeerror"], "high"⟩
  , ⟨"Runtime Error", tokSearch [L "cannot", wsPlus, L "read", wsPlus, L "property"], "high"⟩
  , ⟨"Runtime Error", tokSearch [L "undefined", wsPlus, L "is", wsPlus, L "not"], "high"⟩
  , ⟨"Network Error", tokSearch [L "econnrefused"], "high"⟩
  , ⟨"Network Error", tokSearch [L "etimedout"], "high"⟩
  , ⟨"Network Error", tokSearch [L "network", wsPlus, L "error"], "medium"⟩
  , ⟨"API Error", searchBdry [L "http", wsPlus, one fourFive, exactly digitChar 2] bdryNotDotRem, "high"⟩
  , ⟨"API Error",
      searchBdry [L "status", wsPlus, L "code", Tok.cls (fun c => c = ':' || wsChar c) 1 none,
                  one fourFive, exactly digitChar 2] bdryRem, "high"⟩
  , ⟨"CI Error", tokSearch [L "##[error]"], "high"⟩
  , ⟨"CI Error",
      tokSearch [L "error:", wsPlus, L "process", wsPlus, L "completed", wsPlus, L "with",
                 wsPlus, L "exit", wsPlus, L "code"], "high"⟩
  , ⟨"Process Exit", tokSearch [L "exit", wsPlus, L "code", wsPlus, one nzDigit, digStar], "high"⟩
  , ⟨"Process Exit", tokSearch [L "command", wsPlus, L "failed"], "medium"⟩
  , ⟨"Exit Failure", exitLineTest, "high"⟩
  , ⟨"Process Exit",
      tokSearch [L "exited", wsPlus, L "with", wsPlus, L "code", wsPlus, one nzDigit, digStar], "high"⟩
  , ⟨"Error", searchBdry [L "error"] bdryRem, "medium"⟩
  , ⟨"Error", searchBdry [L "fatal"] bdryRem, "high"⟩
  , ⟨"Error", searchBdry [L "critical"] bdryRem, "high"⟩ ]

/-- Embedding of `findErrorsInLines` (logParser.js lines 286-371): for each
line, the first matching catalogue pattern yields one error record;
`isIntentionalFailure` is set on the Exit Failure category. -/
def findErrorsInLines (lines : List String) : List DetectedError :=
  lines.filterMap (fun line =>
    (errorPatterns.find? (fun p => p.test line)).map (fun p =>
      { category := p.category
        errorMessage := line
        confidence := p.confidence
        evidenceLogLines := [line]
        isIntentionalFailure := p.category = "Exit Failure" }))

example : (findErrorsInLines ["exit 1"]).map (fun e => e.category) = ["Exit Failure"] := by decide

example : (findErrorsInLines ["AssertionError: boom"]).map (fun e => e.category) = ["Test Failure"] := by decide

example : (findErrorsInLines ["hello ERROR world"]).map (fun e => (e.category, e.confidence)) =
    [("Error", "medium")] := by decide

example : findErrorsInLines ["errors are here"] = [] := by decide

example : (findErrorsInLines ["HTTP 404"]).map (fun e => e.category) = ["API Error"] := by decide

example : findErrorsInLines ["HTTP 404.5", "HTTP 2024.01"] = [] := by decide

/-- Model of JS `str.split(sep)` for a one-character separator, on
character lists. -/
def splitOnChar (sep : Char) : List Char → List (List Char)
  | [] => [[]]
  | c :: rest =>
      if c = sep then [] :: splitOnChar sep rest
      else
        match splitOnChar sep rest with
        | [] => [[c]]
        | l :: ls => (c :: l) :: ls

/-- The whitespace set of JS `String.prototype.trim` (ASCII part plus
no-break space and BOM; the logs are ASCII). -/
def trimWsChar (c : Char) : Bool :=
  wsChar c || c = '\xa0' || c = '﻿'

/-- Model of JS `line.trim()`: drop the whitespace run at both ends. -/
def jsTrimL (l : List Char) : List Char :=
  List.rdropWhile trimWsChar (l.dropWhile trimWsChar)

/-- Intermediate characters `[[()#;?]` of the ANSI escape regex. -/
def ansiInterChar (c : Char) : Bool :=
  c = '[' || c = '(' || c = ')' || c = '#' || c = ';' || c = '?'

/-- Final characters `[0-9A-ORZcf-nqry=><]` of the ANSI escape regex. -/
def ansiFinalChar (c : Char) : Bool :=
  digitChar c || ('A' ≤ c && c ≤ 'O') || c = 'R' || c = 'Z' || c = 'c' ||
  ('f' ≤ c && c ≤ 'n') || c = 'q' || c = 'r' || c = 'y' || c = '=' || c = '>' || c = '<'

/-- Candidate lengths (greedy order) for one `(;[0-9]{0,4})` unit. -/
def semiPartLens (s : List Char) : List Nat :=
  match s with
  | ';' :: rest =>
      ((List.range (min 4 (rest.takeWhile digitChar).length + 1)).reverse).map (fun k => 1 + k)
  | _ => []

/-- Candidate lengths (greedy order, iterations preferred) for
`(;[0-9]{0,4})*`. -/
def semiStarLens : Nat → List Char → List Nat
  | 0, _ => [0]
  | fuel + 1, s =>
      ((semiPartLens s).flatMap (fun n => (semiStarLens fuel (s.drop n)).map (fun m => n + m))) ++ [0]

/-- Candidate lengths (greedy order) for `(?:[0-9]{1,4}(?:;[0-9]{0,4})*)?`. -/
def ansiGroupLens (s : List Char) : List Nat :=
  let run := (s.takeWhile digitChar).length
  (((List.range (min 4 run)).reverse.map (fun k => k + 1)).flatMap
    (fun d => (semiStarLens (s.drop d).length (s.drop d)).map (fun m => d + m))) ++ [0]

/-- Backtracking match length (after the introducer character) of the ANSI
escape regex `[\u001b\u009b][[()#;?]*(?:[0-9]{1,4}(?:;[0-9]{0,4})*)?[0-9A-ORZcf-nqry=><]`. -/
def ansiMatchLen (s : List Char) : Option Nat :=
  let inter := (s.takeWhile ansiInterChar).length
  (((List.range (inter + 1)).reverse).flatMap (fun i =>
    (ansiGroupLens (s.drop i)).filterMap (fun g =>
      match (s.drop (i + g)).head? with
      | some c => if ansiFinalChar c then some (i + g + 1) else none
      | none => none))).head?

/-- Model of `line.replace(ansiRegex, '')` with a global regex: scan left to
right, removing each leftmost match.  Each step consumes at least one
character, so fuel equal to the length suffices. -/
def ansiStripGo : Nat → List Char → List Char
  | 0, s => s
  | fuel + 1, s =>
      match s with
      | [] => []
      | c :: rest =>
          if c = '\x1b' || c = '\x9b' then
            match ansiMatchLen rest with
            | some n => ansiStripGo fuel (rest.drop n)
            | none => c :: ansiStripGo fuel rest
          else c :: ansiStripGo fuel rest

/-- Model of `line.replace(ansiRegex, '')`. -/
def ansiStripL (s : List Char) : List Char :=
  ansiStripGo s.length s

/-- Match length of the leading-timestamp regex
`/^\d{4}-\d{2}-\d{2}T\d{2}:\d{2}:\d{2}\.\d+Z\s+/` at the start of `l`
(the fixed-width fields positionally, then the greedy digit and whitespace
runs), or `none`. -/
def tsLen (l : List Char) : Option Nat :=
  let digitsAt := fun (i n : Nat) =>
    ((l.drop i).take n).length == n && ((l.drop i).take n).all digitChar
  let charAt := fun (i : Nat) (c : Char) => (l.drop i).head? == some c
  if digitsAt 0 4 && charAt 4 '-' && digitsAt 5 2 && charAt 7 '-' && digitsAt 8 2 &&
     charAt 10 'T' && digitsAt 11 2 && charAt 13 ':' && digitsAt 14 2 && charAt 16 ':' &&
     digitsAt 17 2 && charAt 19 '.' then
    let d := ((l.drop 20).takeWhile digitChar).length
    if 1 ≤ d && charAt (20 + d) 'Z' then
      let w := ((l.drop (21 + d)).takeWhile wsChar).length
      if 1 ≤ w then some (21 + d + w) else none
    else none
  else none

/-- Model of `line.replace(timestampRegex, '')` (one replacement of the
leading match). -/
def stripTimestampL (l : List Char) : List Char :=
  match tsLen l with
  | some n => l.drop n
  | none => l

/-- Model of `line.replace(/\r(?!\n)/g, '\n')`: a carriage return not
followed by a newline becomes a newline. -/
def crToNlL : List Char → List Char
  | [] => []
  | [c] => if c = '\r' then ['\n'] else [c]
  | c :: c2 :: rest =>
      if c = '\r' then
        if c2 = '\n' then '\r' :: '\n' :: crToNlL rest
        else '\n' :: crToNlL (c2 :: rest)
      else c :: crToNlL (c2 :: rest)

/-- The per-line cleaning pipeline of `cleanLog` (logParser.js lines 51-58):
strip ANSI escapes, strip the leading timestamp, rewrite stray carriage
returns, trim. -/
def cleanLineL (line : List Char) : List Char :=
  jsTrimL (crToNlL (stripTimestampL (ansiStripL line)))

/-- Embedding of `LogParserService.cleanLog` (logParser.js lines 40-60) on
character lists. -/
def cleanL (raw : List Char) : List (List Char) :=
  ((splitOnChar '\n' raw).map cleanLineL).filter (fun l => decide (0 < l.length))

/-- Embedding of `LogParserService.cleanLog` on strings. -/
def cleanLog (raw : String) : List String :=
  (cleanL raw.data).map String.mk

example : cleanLog "hello\n\n  world  \n" = ["hello", "world"] := by decide

example : cleanLog "2024-01-02T03:04:05.123Z npm install" = ["npm install"] := by decide

example : cleanLog "a\rb" = ["a\nb"] := by decide

/-- A detected step (logParser.js `detectSteps`).  Line numbers are JS
numbers; the final `Full Log` step on an empty input has `endLine = -1`, so
they are embedded as integers. -/
structure Step where
  name : String
  startLine : Int
  endLine : Int
  isFromLogFile : Bool := false
deriving DecidableEq, Repr

/-- Capture of `/^##\[group\](.+)$/` (case-sensitive, single line). -/
def groupStartCapture (line : String) : Option (List Char) :=
  if ("##[group]".data).isPrefixOf line.data then
    let rest := line.data.drop 9
    if !rest.isEmpty && rest.all dotChar then some rest else none
  else none

/-- Test of `/^##\[endgroup\]$/`. -/
def isGroupEnd (line : String) : Bool :=
  line = "##[endgroup]"

/-- Capture of `\s+(.+)$` at the tail of a `Run `/`Post ` line: the greedy
whitespace run backtracks just enough to leave a nonempty `.+` capture. -/
def tailCapture (t : List Char) : Option (List Char) :=
  let run := (t.takeWhile wsChar).length
  if run = 0 then none
  else
    let cap := t.drop run
    if !cap.isEmpty then (if cap.all dotChar then some cap else none)
    else if 2 ≤ run then
      match t.getLast? with
      | some c => if dotChar c then some [c] else none
      | none => none
    else none

/-- Capture of `/^Run\s+(.+)$/`. -/
def runCapture (line : String) : Option (List Char) :=
  if ("Run".data).isPrefixOf line.data then tailCapture (line.data.drop 3) else none

/-- Capture of `/^Post\s+(.+)$/`. -/
def postCapture (line : String) : Option (List Char) :=
  if ("Post".data).isPrefixOf line.data then tailCapture (line.data.drop 4) else none

/-- Does `r` match `\s*---$` exactly? -/
def lfRemOk (r : List Char) : Bool :=
  decide (3 ≤ r.length) && r.drop (r.length - 3) = ['-', '-', '-'] &&
    (r.take (r.length - 3)).all wsChar

/-- First (shortest) capture of the lazy group `(.+?\.txt)` at `v` whose
remainder matches `\s*---$`. -/
def lfCaptureAt (v : List Char) : Option (List Char) :=
  ((List.range v.length).map (fun e => e + 1)).findSome? (fun e =>
    let cap := v.take e
    if cap.reverse.take 4 = ['t', 'x', 't', '.'] && cap.all dotChar && lfRemOk (v.drop e)
    then some cap else none)

/-- Capture of `/^---\s*Log File:\s*(.+?\.txt)\s*---$/` (logParser.js line
87).  The greedy `\s*` before the capture backtracks from its maximal run. -/
def lfCapture (line : String) : Option (List Char) :=
  let l := line.data
  if (['-', '-', '-']).isPrefixOf l then
    let t := l.drop 3
    let run := (t.takeWhile wsChar).length
    let t2 := t.drop run
    if ("Log File:".data).isPrefixOf t2 then
      let u := t2.drop 9
      let wsRun := (u.takeWhile wsChar).length
      ((List.range (wsRun + 1)).reverse).findSome? (fun k => lfCaptureAt (u.drop k))
    else none
  else none

/-- Step-name extraction from a log-file marker path (logParser.js lines
105-110): take the last path component, strip a leading `\d+_` and a
trailing `.txt`; fall back to the file name when the result is empty. -/
def lfStepName (filePath : List Char) : String :=
  let fileName := (splitOnChar '/' filePath).getLast?.getD []
  let d := (fileName.takeWhile digitChar).length
  let afterNum :=
    if 1 ≤ d ∧ (fileName.drop d).head? = some '_' then fileName.drop (d + 1) else fileName
  let stepName :=
    if afterNum.reverse.take 4 = ['t', 'x', 't', '.'] then afterNum.take (afterNum.length - 4)
    else afterNum
  jsOrStr (some (String.mk stepName)) (String.mk fileName)

/-- One iteration of the `detectSteps` loop (logParser.js lines 90-179) on
line `i`: returns the new current step and the steps pushed by this line. -/
def stepAct (line : String) (i : Nat) (cur : Option Step) : Option Step × List Step :=
  match lfCapture line with
  | some filePath =>
      (some { name := lfStepName filePath, startLine := (i : Int), endLine := (i : Int),
              isFromLogFile := true },
       match cur with
       | some c => [{ c with endLine := (i : Int) - 1 }]
       | none => [])
  | none =>
    match groupStartCapture line with
    | some g =>
        match cur with
        | some c =>
            if c.isFromLogFile then (cur, [])
            else (some { name := String.mk (jsTrimL g), startLine := (i : Int), endLine := (i : Int) },
                  [{ c with endLine := (i : Int) - 1 }])
        | none =>
            (some { name := String.mk (jsTrimL g), startLine := (i : Int), endLine := (i : Int) }, [])
    | none =>
      match cur with
      | some c =>
          if isGroupEnd line && !c.isFromLogFile then (none, [{ c with endLine := (i : Int) }])
          else (cur, [])
      | none =>
        match runCapture line with
        | some cap =>
            (some { name := "Run: " ++ strTake 50 (String.mk cap) ++ "...",
                    startLine := (i : Int), endLine := (i : Int) }, [])
        | none =>
          match postCapture line with
          | some cap =>
              (some { name := "Post: " ++ String.mk cap, startLine := (i : Int), endLine := (i : Int) }, [])
          | none => (cur, [])

/-- The `detectSteps` loop over all lines, carrying the line index, the
current step and the accumulated steps; the unclosed final step extends to
the last line. -/
def stepLoop (total : Nat) : List String → Nat → Option Step → List Step → List Step
  | [], _, cur, acc =>
      acc ++ (match cur with
              | some c => [{ c with endLine := (total : Int) - 1 }]
              | none => [])
  | line :: rest, i, cur, acc =>
      let r := stepAct line i cur
      stepLoop total rest (i + 1) r.1 (acc ++ r.2)

/-- Embedding of `LogParserService.detectSteps` (logParser.js lines 65-199). -/
def detectSteps (lines : List String) : List Step :=
  let steps := stepLoop lines.length lines 0 none []
  if steps.isEmpty then
    [{ name := "Full Log", startLine := 0, endLine := (lines.length : Int) - 1 }]
  else steps

example :
    detectSteps ["##[group]build", "stuff", "##[endgroup]"] =
      [{ name := "build", startLine := 0, endLine := 2 }] := by decide

example :
    detectSteps ["hello", "Run npm test"] =
      [{ name := "Run: npm test...", startLine := 1, endLine := 1 }] := by decide

example :
    detectSteps ["just", "text"] =
      [{ name := "Full Log", startLine := 0, endLine := 1 }] := by decide

example :
    (detectSteps ["--- Log File: build-and-test/6_Force CI failure (testing).txt ---",
                  "exit 1"]).map Step.name = ["Force CI failure (testing)"] := by decide

/-- `MAX_CHUNK_LINES` (logParser.js line 15). -/
def MAX_CHUNK_LINES : Nat := 1000

/-- A log chunk (logParser.js `createChunks`). -/
structure Chunk where
  chunkIndex : Nat
  stepName : String
  content : String
  startLine : Int
  endLine : Int
  lineCount : Nat
  tokenCount : Nat
  hasErrors : Bool
  errorCount : Nat
deriving DecidableEq, Repr

/-- Embedding of `LogParserService.estimateTokens` (logParser.js lines
254-258): `Math.ceil(lines.join(' ').length / 4)`. -/
def estimateTokens (lines : List String) : Nat :=
  ((joinWith " " lines).length + 3) / 4

/-- Clamp a JS slice bound into `[0, len]`. -/
def jsClamp (len : Nat) (x : Int) : Nat :=
  if x < 0 then ((len : Int) + x).toNat else min x.toNat len

/-- Model of JS `arr.slice(a, b)`. -/
def jsSlice (l : List String) (a b : Int) : List String :=
  (l.take (jsClamp l.length b)).drop (jsClamp l.length a)

/-- Build one chunk record from its lines (common part of both branches of
`createChunks`, logParser.js lines 212-243). -/
def mkChunk (idx : Nat) (name : String) (ls : List String) (absStart absEnd : Int) : Chunk :=
  let errors := findErrorsInLines ls
  { chunkIndex := idx
    stepName := name
    content := joinWith "\n" ls
    startLine := absStart
    endLine := absEnd
    lineCount := ls.length
    tokenCount := estimateTokens ls
    hasErrors := decide (0 < errors.length)
    errorCount := errors.length }

/-- The chunk produced for the slice of `stepLines` starting at offset `i`
in the multi-chunk branch of `createChunks` (logParser.js lines 227-243). -/
def partChunk (name : String) (stepStart : Int) (stepLines : List String) (idx i : Nat) : Chunk :=
  let chunkLines := (stepLines.drop i).take MAX_CHUNK_LINES
  let absoluteStart := stepStart + (i : Int)
  let absoluteEnd := absoluteStart + (chunkLines.length : Int) - 1
  mkChunk idx (name ++ " (part " ++ toString (i / MAX_CHUNK_LINES + 1) ++ ")")
    chunkLines absoluteStart absoluteEnd

/-- The splitting loop `for (let i = 0; i < stepLines.length; i += MAX_CHUNK_LINES)`
of `createChunks`, with fuel (one unit per produced chunk). -/
def chunkLoopGo (name : String) (stepStart : Int) (stepLines : List String) :
    Nat → Nat → Nat → List Chunk
  | 0, _, _ => []
  | fuel + 1, base, i =>
      if i < stepLines.length then
        partChunk name stepStart stepLines base i ::
          chunkLoopGo name stepStart stepLines fuel (base + 1) (i + MAX_CHUNK_LINES)
      else []

/-- The chunk records produced for a single step whose sliced lines are
`stepLines`, with global counter starting at `base` (logParser.js lines
208-245). -/
def stepChunkRecords (step : Step) (stepLines : List String) (base : Nat) : List Chunk :=
  if stepLines.length ≤ MAX_CHUNK_LINES then
    [mkChunk base step.name stepLines step.startLine step.endLine]
  else
    chunkLoopGo step.name step.startLine stepLines stepLines.length base 0

/-- The `createChunks` fold over steps, threading the global chunk counter. -/
def createChunksGo (lines : List String) : List Step → Nat → List Chunk
  | [], _ => []
  | st :: sts, base =>
      let cs := stepChunkRecords st (jsSlice lines st.startLine (st.endLine + 1)) base
      cs ++ createChunksGo lines sts (base + cs.length)

/-- Embedding of `LogParserService.createChunks` (logParser.js lines
204-249). -/
def createChunks (steps : List Step) (lines : List String) : List Chunk :=
  createChunksGo lines steps 0

example :
    createChunks [{ name := "Full Log", startLine := 0, endLine := 1 }] ["a", "ERROR b"] =
      [{ chunkIndex := 0, stepName := "Full Log", content := "a\nERROR b", startLine := 0,
         endLine := 1, lineCount := 2, tokenCount := 3, hasErrors := true, errorCount := 1 }] := by
  decide

/-- Case-insensitive substring test (a JS regex that is a plain literal). -/
def ciContains (pat : String) (s : String) : Bool :=
  tokSearch [L pat] s

/-- A confidence record `{score, reason}` of the classifier. -/
structure Confidence where
  score : Rat
  reason : String
deriving DecidableEq, Repr

/-- A classification result of `FailureClassifierService.classify`.  Absent
JS object keys are embedded as `none` / default values. -/
structure Classification where
  failureType : String
  priority : Nat
  skipAI : Bool
  needsAIClassification : Bool := false
  rootCause : Option String := none
  failureStage : Option String := none
  suggestedFix : Option String := none
  confidence : Confidence
  highPriorityErrors : List DetectedError := []
  detectedError : Option DetectedError := none
  detectedStep : Option Chunk := none
deriving DecidableEq, Repr

/-- Embedding of `FailureClassifierService.detectIntentionalFailure`
(failureClassifier.js lines 113-165). -/
def detectIntentionalFailure (chunks : List Chunk) (detectedErrors : List DetectedError) :
    Option Classification :=
  let exitFailure := detectedErrors.find? (fun e =>
    e.category = "Exit Failure" || exitLineTest e.errorMessage)
  match exitFailure with
  | some ef =>
      let failedStep := chunks.find? (fun c =>
        jsIncludes c.content ef.errorMessage || jsIncludes (strLower c.stepName) "exit")
      some { failureType := "INTENTIONAL"
             priority := 5
             rootCause := some "Intentional CI failure via explicit exit command (exit 1)"
             failureStage :=
               some (jsOrStr (failedStep.map Chunk.stepName) (jsOrStr ef.stepName "Forced CI Step"))
             suggestedFix :=
               some "Remove or guard the forced \"exit 1\" step when not testing CI behavior. This is typically used for testing CI pipeline failure handling."
             confidence := { score := 1, reason := "Explicit exit command detected in CI logs" }
             skipAI := true
             detectedError := some ef }
  | none =>
    let intentionalStep := chunks.find? (fun c =>
      jsIncludes (strLower c.stepName) "force" && jsIncludes (strLower c.stepName) "fail")
    match intentionalStep with
    | some st =>
        if st.hasErrors then
          some { failureType := "INTENTIONAL"
                 priority := 5
                 rootCause := some ("Intentional CI failure in step: \"" ++ st.stepName ++ "\"")
                 failureStage := some st.stepName
                 suggestedFix :=
                   some "This step is designed to fail for testing purposes. Remove it when not testing CI behavior."
                 confidence :=
                   { score := 0.95, reason := "Step name indicates intentional failure for testing" }
                 skipAI := true
                 detectedStep := some st }
        else none
    | none => none

/-- The `testPatterns` list (failureClassifier.js lines 171-184);
alternations and optional groups are expanded. -/
def testPatterns : List (String → Bool) :=
  [ ciContains "test failed"
  , anyAlt [[L "test failing"], [L "test failed"], [L "tests failing"], [L "tests failed"]]
  , anyAlt [[L "assertion failed"], [L "assertion error"]]
  , tokSearch [L "expect(", dotPlus, L ").to"]
  , anyAlt [[L "expected ", dotPlus, L " but got"], [L "expected ", dotPlus, L " but be"],
            [L "expected ", dotPlus, L " but equal"], [L "expected ", dotPlus, L " to got"],
            [L "expected ", dotPlus, L " to be"], [L "expected ", dotPlus, L " to equal"]]
  , ciContains "jest"
  , ciContains "mocha"
  , ciContains "vitest"
  , ciContains "cypress"
  , ciContains "playwright"
  , anyAlt [[digPlus, L " test failed"], [digPlus, L " tests failed"],
            [digPlus, L " spec failed"], [digPlus, L " specs failed"]]
  , tokSearch [L "fail", wsPlus, Tok.cls nonWsChar 1 none, L ".test."] ]

/-- Embedding of `detectTestFailure` (failureClassifier.js lines 170-205). -/
def detectTestFailure (detectedErrors : List DetectedError) : Option Classification :=
  let testErrors := detectedErrors.filter (fun e =>
    e.category = "Test Failure" || testPatterns.any (fun p => p e.errorMessage))
  if 0 < testErrors.length then
    some { failureType := "TEST", priority := 1, skipAI := false
           highPriorityErrors := testErrors
           confidence := { score := 0.85
                           reason := toString testErrors.length ++ " test failure(s) detected" } }
  else none

/-- The `buildPatterns` list (failureClassifier.js lines 211-225). -/
def buildPatterns : List (String → Bool) :=
  [ anyAlt [[L "compilation failed"], [L "compilation error"]]
  , ciContains "build failed"
  , ciContains "failed to compile"
  , ciContains "typescript error"
  , tokSearch [L "ts", exactly digitChar 4, L ":"]
  , ciContains "syntax error"
  , ciContains "cannot find module"
  , ciContains "module not found"
  , ciContains "webpack"
  , ciContains "rollup"
  , ciContains "esbuild"
  , tokSearch [L "vite", dotStar, L "error"]
  , tokSearch [L "error ts", digPlus] ]

/-- Embedding of `detectBuildFailure` (failureClassifier.js lines 210-247). -/
def detectBuildFailure (detectedErrors : List DetectedError) : Option Classification :=
  let buildErrors := detectedErrors.filter (fun e =>
    e.category = "Build Failure" || e.category = "Syntax Error" ||
      buildPatterns.any (fun p => p e.errorMessage))
  if 0 < buildErrors.length then
    some { failureType := "BUILD", priority := 2, skipAI := false
           highPriorityErrors := buildErrors
           confidence := { score := 0.80
                           reason := toString buildErrors.length ++ " build/compile error(s) detected" } }
  else none

/-- The `runtimePatterns` list (failureClassifier.js lines 253-267). -/
def runtimePatterns : List (String → Bool) :=
  [ ciContains "typeerror:"
  , ciContains "referenceerror:"
  , ciContains "rangeerror:"
  , ciContains "syntaxerror:"
  , ciContains "urierror:"
  , ciContains "evalerror:"
  , ciContains "undefined is not"
  , ciContains "null is not"
  , ciContains "cannot read propert"
  , ciContains "is not a function"
  , ciContains "is not defined"
  , ciContains "uncaught exception"
  , ciContains "unhandled promise rejection" ]

/-- Embedding of `detectRuntimeError` (failureClassifier.js lines 252-288). -/
def detectRuntimeError (detectedErrors : List DetectedError) : Option Classification :=
  let runtimeErrors := detectedErrors.filter (fun e =>
    e.category = "Runtime Error" || runtimePatterns.any (fun p => p e.errorMessage))
  if 0 < runtimeErrors.length then
    some { failureType := "RUNTIME", priority := 3, skipAI := false
           highPriorityErrors := runtimeErrors
           confidence := { score := 0.75
                           reason := toString runtimeErrors.length ++ " runtime error(s) detected" } }
  else none

/-- The `infraPatterns` list (failureClassifier.js lines 294-312). -/
def infraPatterns : List (String → Bool) :=
  [ ciContains "econnrefused"
  , ciContains "econnreset"
  , ciContains "enotfound"
  , ciContains "etimedout"
  , ciContains "network error"
  , ciContains "connection refused"
  , ciContains "connection reset"
  , ciContains "docker"
  , ciContains "container"
  , ciContains "kubernetes"
  , ciContains "k8s"
  , anyAlt [[L "pod failed"], [L "pod error"]]
  , ciContains "redis"
  , ciContains "database connection"
  , ciContains "postgres"
  , ciContains "mysql"
  , ciContains "mongodb" ]

/-- Embedding of `detectInfraFailure` (failureClassifier.js lines 293-334). -/
def detectInfraFailure (detectedErrors : List DetectedError) : Option Classification :=
  let infraErrors := detectedErrors.filter (fun e =>
    e.category = "Network Error" || e.category = "CI Error" ||
      infraPatterns.any (fun p => p e.errorMessage))
  if 0 < infraErrors.length then
    some { failureType := "INFRA", priority := 4, skipAI := false
           highPriorityErrors := infraErrors
           confidence := { score := 0.70
                           reason := toString infraErrors.length ++ " infrastructure issue(s) detected" } }
  else none

/-- The `securityPatterns` list (failureClassifier.js lines 340-355). -/
def securityPatterns : List (String → Bool) :=
  [ anyAlt [[L "vulnerability"], [L "vulnerabilities"]]
  , anyAlt [[L "security issue"], [L "security warning"], [L "security error"]]
  , tokSearch [L "cve-", exactly digitChar 4, L "-", digPlus]
  , ciContains "npm audit"
  , ciContains "high severity"
  , ciContains "critical severity"
  , ciContains "snyk"
  , ciContains "dependabot"
  , anyAlt [[L "secret exposed"], [L "secret leaked"]]
  , ciContains "credential"
  , ciContains "authentication failed"
  , ciContains "unauthorized"
  , ciContains "403 forbidden"
  , ciContains "401 unauthorized" ]

/-- Embedding of `detectSecurityFailure` (failureClassifier.js lines
339-380); it also scans chunk contents. -/
def detectSecurityFailure (detectedErrors : List DetectedError) (chunks : List Chunk) :
    Option Classification :=
  let securityErrors := detectedErrors.filter (fun e =>
    securityPatterns.any (fun p => p e.errorMessage))
  let securityChunks := chunks.filter (fun c =>
    securityPatterns.any (fun p => p c.content))
  if 0 < securityErrors.length ∨ 0 < securityChunks.length then
    some { failureType := "SECURITY", priority := 5, skipAI := false
           highPriorityErrors := securityErrors
           confidence := { score := 0.75, reason := "Security issue(s) detected" } }
  else none

/-- The `timeoutPatterns` list (failureClassifier.js lines 386-396). -/
def timeoutPatterns : List (String → Bool) :=
  [ ciContains "timeout"
  , ciContains "timed out"
  , anyAlt [[L "exceeded the deadline"], [L "exceeded deadline"]]
  , tokSearch [L "operation", dotStar, L "timed out"]
  , ciContains "request timeout"
  , ciContains "socket timeout"
  , ciContains "execution timeout"
  , ciContains "job timeout"
  , ciContains "esockettimedout" ]

/-- Embedding of `detectTimeoutFailure` (failureClassifier.js lines
385-421); it also scans chunk contents. -/
def detectTimeoutFailure (detectedErrors : List DetectedError) (chunks : List Chunk) :
    Option Classification :=
  let timeoutErrors := detectedErrors.filter (fun e =>
    timeoutPatterns.any (fun p => p e.errorMessage))
  let timeoutChunks := chunks.filter (fun c =>
    timeoutPatterns.any (fun p => p c.content))
  if 0 < timeoutErrors.length ∨ 0 < timeoutChunks.length then
    some { failureType := "TIMEOUT", priority := 6, skipAI := false
           highPriorityErrors := timeoutErrors
           confidence := { score := 0.80, reason := "Timeout issue(s) detected" } }
  else none

/-- The `depPatterns` list (failureClassifier.js lines 427-441). -/
def depPatterns : List (String → Bool) :=
  [ ciContains "npm err!"
  , ciContains "yarn error"
  , ciContains "pnpm error"
  , tokSearch [L "package", dotStar, L "not found"]
  , anyAlt [[L "missing peer dependency"], [L "missing dependency"]]
  , ciContains "eresolve"
  , ciContains "could not resolve"
  , ciContains "dependency conflict"
  , ciContains "version mismatch"
  , ciContains "peer dep"
  , ciContains "npm warn"
  , tokSearch [L "404 not found", dotStar, L "registry"]
  , ciContains "install failed" ]

/-- Embedding of `detectDependencyFailure` (failureClassifier.js lines
426-462). -/
def detectDependencyFailure (detectedErrors : List DetectedError) (_chunks : List Chunk) :
    Option Classification :=
  let depErrors := detectedErrors.filter (fun e =>
    e.category = "Dependency Issue" || depPatterns.any (fun p => p e.errorMessage))
  if 0 < depErrors.length then
    some { failureType := "DEPENDENCY", priority := 7, skipAI := false
           highPriorityErrors := depErrors
           confidence := { score := 0.75
                           reason := toString depErrors.length ++ " dependency issue(s) detected" } }
  else none

/-- The `configPatterns` list (failureClassifier.js lines 468-478). -/
def configPatterns : List (String → Bool) :=
  [ anyAlt [[L "config error"], [L "config invalid"], [L "config missing"],
            [L "configuration error"], [L "configuration invalid"], [L "configuration missing"]]
  , anyAlt [[L "env variable", dotStar, L "missing"], [L "env variable", dotStar, L "not set"],
            [L "env variable", dotStar, L "undefined"], [L "env var", dotStar, L "missing"],
            [L "env var", dotStar, L "not set"], [L "env var", dotStar, L "undefined"],
            [L "environment variable", dotStar, L "missing"],
            [L "environment variable", dotStar, L "not set"],
            [L "environment variable", dotStar, L "undefined"],
            [L "environment var", dotStar, L "missing"],
            [L "environment var", dotStar, L "not set"],
            [L "environment var", dotStar, L "undefined"]]
  , anyAlt [[L "invalid yaml"], [L "invalid json"], [L "invalid config"]]
  , anyAlt [[L "missing required"], [L "missing config"]]
  , ciContains ".env"
  , anyAlt [[L "secret", dotStar, L "not found"], [L "secret", dotStar, L "not set"]]
  , ciContains "environment not configured"
  , ciContains "bad configuration"
  , ciContains "settings error" ]

/-- Embedding of `detectConfigFailure` (failureClassifier.js lines 467-503);
it also scans chunk contents. -/
def detectConfigFailure (detectedErrors : List DetectedError) (chunks : List Chunk) :
    Option Classification :=
  let configErrors := detectedErrors.filter (fun e =>
    configPatterns.any (fun p => p e.errorMessage))
  let configChunks := chunks.filter (fun c =>
    configPatterns.any (fun p => p c.content))
  if 0 < configErrors.length ∨ 0 < configChunks.length then
    some { failureType := "CONFIG", priority := 8, skipAI := false
           highPriorityErrors := configErrors
           confidence := { score := 0.70, reason := "Configuration issue(s) detected" } }
  else none

/-- The `permPatterns` list (failureClassifier.js lines 509-520). -/
def permPatterns : List (String → Bool) :=
  [ ciContains "permission denied"
  , ciContains "access denied"
  , ciContains "eacces"
  , ciContains "eperm"
  , ciContains "not permitted"
  , ciContains "insufficient permission"
  , ciContains "forbidden"
  , ciContains "cannot write"
  , ciContains "read-only"
  , ciContains "operation not permitted" ]

/-- Embedding of `detectPermissionFailure` (failureClassifier.js lines
508-540). -/
def detectPermissionFailure (detectedErrors : List DetectedError) (_chunks : List Chunk) :
    Option Classification :=
  let permErrors := detectedErrors.filter (fun e =>
    permPatterns.any (fun p => p e.errorMessage))
  if 0 < permErrors.length then
    some { failureType := "PERMISSION", priority := 9, skipAI := false
           highPriorityErrors := permErrors
           confidence := { score := 0.80
                           reason := toString permErrors.length ++ " permission error(s) detected" } }
  else none

/-- The `lintPatterns` list (failureClassifier.js lines 546-556). -/
def lintPatterns : List (String → Bool) :=
  [ ciContains "eslint"
  , ciContains "prettier"
  , ciContains "tslint"
  , ciContains "stylelint"
  , anyAlt [[L "lint error"], [L "lint warning"], [L "linting error"], [L "linting warning"]]
  , tokSearch [digPlus, L " warning"]
  , tokSearch [digPlus, L " error", dotStar, digPlus, L " warning"]
  , ciContains "code style"
  , ciContains "formatting error" ]

/-- Embedding of `detectLintIssue` (failureClassifier.js lines 545-577):
a generic medium-confidence `Error` record also counts as a lint issue. -/
def detectLintIssue (detectedErrors : List DetectedError) : Option Classification :=
  let lintErrors := detectedErrors.filter (fun e =>
    (e.category = "Error" && e.confidence = "medium") ||
      lintPatterns.any (fun p => p e.errorMessage))
  if 0 < lintErrors.length then
    some { failureType := "LINT", priority := 10, skipAI := false
           highPriorityErrors := lintErrors
           confidence := { score := 0.50
                           reason := toString lintErrors.length ++
                             " lint/warning issue(s) detected - low priority" } }
  else none

/-- Embedding of `FailureClassifierService.classify` (failureClassifier.js
lines 29-107): the detectors run in strict order and the first match wins;
the default is UNKNOWN with priority 99. -/
def classify (chunks : List Chunk) (detectedErrors : List DetectedError) : Classification :=
  match detectIntentionalFailure chunks detectedErrors with
  | some r => r
  | none =>
  match detectTestFailure detectedErrors with
  | some r => r
  | none =>
  match detectBuildFailure detectedErrors with
  | some r => r
  | none =>
  match detectRuntimeError detectedErrors with
  | some r => r
  | none =>
  match detectInfraFailure detectedErrors with
  | some r => r
  | none =>
  match detectSecurityFailure detectedErrors chunks with
  | some r => r
  | none =>
  match detectTimeoutFailure detectedErrors chunks with
  | some r => r
  | none =>
  match detectDependencyFailure detectedErrors chunks with
  | some r => r
  | none =>
  match detectConfigFailure detectedErrors chunks with
  | some r => r
  | none =>
  match detectPermissionFailure detectedErrors chunks with
  | some r => r
  | none =>
  match detectLintIssue detectedErrors with
  | some r => r
  | none =>
    { failureType := "UNKNOWN", priority := 99, skipAI := false, needsAIClassification := true
      confidence := { score := 0
                      reason := "No deterministic classification possible - AI will suggest category" } }

/-- The AnalysisResult fields written by the worker upsert. -/
structure StoredAnalysis where
  rootCause : Option String
  failureStage : String
  suggestedFix : Option String
  priority : Nat
  failureType : String
  usedAI : Bool
deriving DecidableEq, Repr

/-- A narrative triple returned by the AI analyzer (used on the non-skip
path of the worker). -/
structure AIAnalysis where
  rootCause : String
  failureStage : String
  suggestedFix : String
deriving DecidableEq, Repr

/-- Embedding of the worker decision and AnalysisResult upsert (worker job
handler, steps 7-8): when `classification.skipAI` holds the narrative comes
from the classifier and `usedAI` is stored false (`usedAI !== false`);
otherwise the AI narrative is stored with `usedAI` true.  The upsert writes
`failureStage || 'Unknown'`. -/
def workerAnalysisResult (classification : Classification) (ai : AIAnalysis) : StoredAnalysis :=
  if classification.skipAI then
    { rootCause := classification.rootCause
      failureStage := jsOrStr classification.failureStage "Unknown"
      suggestedFix := classification.suggestedFix
      priority := classification.priority
      failureType := classification.failureType
      usedAI := false }
  else
    { rootCause := some ai.rootCause
      failureStage := jsOrStr (some ai.failureStage) "Unknown"
      suggestedFix := some ai.suggestedFix
      priority := classification.priority
      failureType := classification.failureType
      usedAI := true }

example :
    (classify [] [{ category := "Exit Failure", errorMessage := "exit 1", confidence := "high",
                    evidenceLogLines := ["exit 1"], isIntentionalFailure := true }]).failureType =
      "INTENTIONAL" := by decide

example :
    (classify [] [{ category := "Test Failure", errorMessage := "AssertionError: nope",
                    confidence := "high", evidenceLogLines := [] },
                  { category := "Error", errorMessage := "ERROR eslint warning",
                    confidence := "medium", evidenceLogLines := [] }]).priority = 1 := by decide

example :
    (classify [] [{ category := "Error", errorMessage := "ERROR", confidence := "medium",
                    evidenceLogLines := ["ERROR"] }]).failureType = "LINT" := by decide

example :
    (classify [] []).failureType = "UNKNOWN" := by decide

/-- A JSON value (model of the values produced by `JSON.parse`). -/
inductive JVal where
  | jnull
  | jbool (b : Bool)
  | jnum (q : Rat)
  | jstr (s : String)
  | jarr (elems : List JVal)
  | jobj (fields : List (String × JVal))

/-- JSON whitespace. -/
def jsonWsChar (c : Char) : Bool :=
  c = ' ' || c = '\t' || c = '\n' || c = '\r'

/-- Hexadecimal digit value. -/
def hexDigitVal (c : Char) : Option Nat :=
  if '0' ≤ c ∧ c ≤ '9' then some (c.toNat - 48)
  else if 'a' ≤ c ∧ c ≤ 'f' then some (c.toNat - 87)
  else if 'A' ≤ c ∧ c ≤ 'F' then some (c.toNat - 55)
  else none

/-- Parse exactly four hex digits (a `\uXXXX` escape). -/
def parseHex4 (l : List Char) : Option (Nat × List Char) :=
  match l with
  | a :: b :: c :: d :: rest => do
      let ha ← hexDigitVal a
      let hb ← hexDigitVal b
      let hc ← hexDigitVal c
      let hd ← hexDigitVal d
      some (((ha * 16 + hb) * 16 + hc) * 16 + hd, rest)
  | _ => none

/-- Parse the body of a JSON string after the opening quote; returns the
content and the remainder after the closing quote.  (Surrogate pairs are
not recombined; the analyzed strings are ASCII.) -/
def parseStrBody : Nat → List Char → Option (List Char × List Char)
  | 0, _ => none
  | _ + 1, [] => none
  | fuel + 1, c :: rest =>
      if c = '"' then some ([], rest)
      else if c = '\\' then
        match rest with
        | [] => none
        | e :: rest2 =>
            if e = 'u' then do
              let hr ← parseHex4 rest2
              let sr ← parseStrBody fuel hr.2
              some (Char.ofNat hr.1 :: sr.1, sr.2)
            else do
              let ec ←
                if e = '"' then some '"'
                else if e = '\\' then some '\\'
                else if e = '/' then some '/'
                else if e = 'b' then some '\x08'
                else if e = 'f' then some '\x0c'
                else if e = 'n' then some '\n'
                else if e = 'r' then some '\r'
                else if e = 't' then some '\t'
                else none
              let sr ← parseStrBody fuel rest2
              some (ec :: sr.1, sr.2)
      else if c.toNat < 32 then none
      else do
        let sr ← parseStrBody fuel rest
        some (c :: sr.1, sr.2)

/-- Digits to a natural number. -/
def digitsToNat (l : List Char) : Nat :=
  l.foldl (fun a c => a * 10 + (c.toNat - 48)) 0

/-- Parse a JSON number into a rational. -/
def parseNum (l : List Char) : Option (Rat × List Char) :=
  let sign : Rat := if l.head? = some '-' then -1 else 1
  let l1 := if l.head? = some '-' then l.drop 1 else l
  let ip := l1.takeWhile digitChar
  if ip.isEmpty then none
  else
    let l2 := l1.drop ip.length
    let withFrac : Option (Rat × List Char) :=
      if l2.head? = some '.' then
        let fp := (l2.drop 1).takeWhile digitChar
        if fp.isEmpty then none
        else some (((digitsToNat ip : Rat) + (digitsToNat fp : Rat) / ((10 : Rat) ^ fp.length)),
                   (l2.drop 1).drop fp.length)
      else some ((digitsToNat ip : Rat), l2)
    match withFrac with
    | none => none
    | some (m, l3) =>
        if l3.head? = some 'e' ∨ l3.head? = some 'E' then
          let l4 := l3.drop 1
          let esign : Bool := l4.head? = some '-'
          let l5 := if l4.head? = some '-' ∨ l4.head? = some '+' then l4.drop 1 else l4
          let ed := l5.takeWhile digitChar
          if ed.isEmpty then none
          else
            let e := digitsToNat ed
            let q := if esign then m / ((10 : Rat) ^ e) else m * ((10 : Rat) ^ e)
            some (sign * q, l5.drop ed.length)
        else some (sign * m, l3)

mutual

/-- Parse one JSON value at `l` (whitespace already skipped). -/
def parseVal : Nat → List Char → Option (JVal × List Char)
  | 0, _ => none
  | fuel + 1, l =>
      if ("null".data).isPrefixOf l then some (JVal.jnull, l.drop 4)
      else if ("true".data).isPrefixOf l then some (JVal.jbool true, l.drop 4)
      else if ("false".data).isPrefixOf l then some (JVal.jbool false, l.drop 5)
      else
        match l with
        | '"' :: rest => do
            let sr ← parseStrBody rest.length rest
            some (JVal.jstr (String.mk sr.1), sr.2)
        | '{' :: rest =>
            let r := rest.dropWhile jsonWsChar
            (match r with
             | '}' :: r2 => some (JVal.jobj [], r2)
             | _ => do
                 let mr ← parseMembers fuel r
                 some (JVal.jobj mr.1, mr.2))
        | '[' :: rest =>
            let r := rest.dropWhile jsonWsChar
            (match r with
             | ']' :: r2 => some (JVal.jarr [], r2)
             | _ => do
                 let er ← parseElems fuel r
                 some (JVal.jarr er.1, er.2))
        | _ => do
            let nr ← parseNum l
            some (JVal.jnum nr.1, nr.2)

/-- Parse the members of a JSON object (at least one), up to and including
the closing brace. -/
def parseMembers : Nat → List Char → Option (List (String × JVal) × List Char)
  | 0, _ => none
  | fuel + 1, l =>
      match l with
      | '"' :: rest => do
          let kr ← parseStrBody rest.length rest
          let afterColon ←
            match kr.2.dropWhile jsonWsChar with
            | ':' :: r2 => some (r2.dropWhile jsonWsChar)
            | _ => none
          let vr ← parseVal fuel afterColon
          match vr.2.dropWhile jsonWsChar with
          | ',' :: r3 => do
              let mr ← parseMembers fuel (r3.dropWhile jsonWsChar)
              some ((String.mk kr.1, vr.1) :: mr.1, mr.2)
          | '}' :: r3 => some ([(String.mk kr.1, vr.1)], r3)
          | _ => none
      | _ => none

/-- Parse the elements of a JSON array (at least one), up to and including
the closing bracket. -/
def parseElems : Nat → List Char → Option (List JVal × List Char)
  | 0, _ => none
  | fuel + 1, l => do
      let vr ← parseVal fuel l
      match vr.2.dropWhile jsonWsChar with
      | ',' :: r2 => do
          let er ← parseElems fuel (r2.dropWhile jsonWsChar)
          some (vr.1 :: er.1, er.2)
      | ']' :: r2 => some ([vr.1], r2)
      | _ => none

end

/-- Model of `JSON.parse`: one value, possibly surrounded by whitespace. -/
def jsonParse (s : String) : Option JVal :=
  let l := s.data.dropWhile jsonWsChar
  match parseVal (l.length + 1) l with
  | some (v, rest) => if (rest.dropWhile jsonWsChar).isEmpty then some v else none
  | none => none

/-- The substring matched by `aiText.match(/\{[\s\S]*\}/)` (aiAnalyzer.js
line 101): from the first opening brace to the last closing brace (the
quantifier is greedy), requiring the closing brace to come after. -/
def jsonCandidate (aiText : String) : Option String :=
  let l := aiText.data
  match l.findIdx? (fun c => c = '\x7b'), (l.reverse.findIdx? (fun c => c = '\x7d')).map
      (fun k => l.length - 1 - k) with
  | some i, some j => if i < j then some (String.mk ((l.take (j + 1)).drop i)) else none
  | _, _ => none

/-- The structured result of `parseAIResponse`.  Field values keep their
JSON shape (JS assigns the raw parsed value). -/
structure AIParsed where
  rootCause : JVal
  failureStage : JVal
  suggestedFix : JVal

/-- JS truthiness of a JSON value. -/
def jsTruthy : JVal → Bool
  | JVal.jnull => false
  | JVal.jbool b => b
  | JVal.jnum q => decide (q ≠ 0)
  | JVal.jstr s => !s.isEmpty
  | JVal.jarr _ => true
  | JVal.jobj _ => true

/-- Object field lookup; `JSON.parse` keeps the last duplicate key. -/
def jGet (fields : List (String × JVal)) (k : String) : Option JVal :=
  (fields.reverse.find? (fun f => f.1 = k)).map (fun f => f.2)

/-- Model of JS `a || b` on parsed JSON values. -/
def jsOrJ (a : Option JVal) (b : JVal) : JVal :=
  match a with
  | some v => if jsTruthy v then v else b
  | none => b

/-- The JSON branch of `parseAIResponse` (aiAnalyzer.js lines 103-108). -/
def fromJsonObj (o : List (String × JVal)) (aiText : String) : AIParsed :=
  { rootCause := jsOrJ (jGet o "rootCause") (jsOrJ (jGet o "root_cause")
      (JVal.jstr "Analysis completed"))
    failureStage := jsOrJ (jGet o "failureStage") (jsOrJ (jGet o "failure_stage")
      (JVal.jstr "Build/Test"))
    suggestedFix := jsOrJ (jGet o "suggestedFix") (jsOrJ (jGet o "suggested_fix")
      (jsOrJ (jGet o "fix") (JVal.jstr aiText))) }

/-- The line list used by the heuristic fallback:
`aiText.split('\n').filter(line => line.trim())` (original lines kept). -/
def heuristicLines (aiText : String) : List String :=
  ((splitOnChar '\n' aiText.data).map String.mk).filter
    (fun line => !(jsTrimL line.data).isEmpty)

/-- The label-scanning loop of the heuristic fallback (aiAnalyzer.js lines
123-137); the last matching line wins for each of the three fields. -/
def heuristicGo (all : List String) : List String → Nat → String × String × String →
    String × String × String
  | [], _, st => st
  | line :: rest, i, (rc, fs, sf) =>
      let low := strLower line
      let rc2 :=
        if jsIncludes low "root cause" || jsIncludes low "problem" || jsIncludes low "issue"
        then jsOrStr (all.get? (i + 1)) line else rc
      let fs2 :=
        if jsIncludes low "stage" || jsIncludes low "step"
        then jsOrStr (all.get? (i + 1)) line else fs
      let sf2 :=
        if jsIncludes low "fix" || jsIncludes low "solution" || jsIncludes low "resolve"
        then joinWith "\n" (all.drop i) else sf
      heuristicGo all rest (i + 1) (rc2, fs2, sf2)

/-- Model of `.replace(/^[\*\-#\d.]+\s*/, '')`. -/
def stripLead (s : String) : String :=
  let l := s.data
  let run := (l.takeWhile (fun c => c = '*' || c = '-' || c = '#' || digitChar c || c = '.')).length
  if 1 ≤ run then String.mk ((l.drop run).dropWhile wsChar) else s

/-- The heuristic text fallback of `parseAIResponse` (aiAnalyzer.js lines
114-143): label scan, then truncation to 300 / 100 / 500 characters. -/
def heuristicParse (aiText : String) : AIParsed :=
  let lines := heuristicLines aiText
  let st := heuristicGo lines lines 0 ("Unable to determine root cause", "Build/Test", aiText)
  { rootCause := JVal.jstr (strTake 300 (stripLead st.1))
    failureStage := JVal.jstr (strTake 100 (stripLead st.2.1))
    suggestedFix := JVal.jstr (strTake 500 st.2.2) }

/-- Embedding of `AIAnalyzerService.parseAIResponse` (aiAnalyzer.js lines
98-144). -/
def parseAIResponse (aiText : String) : AIParsed :=
  match jsonCandidate aiText with
  | some cand =>
      match jsonParse cand with
      | some (JVal.jobj o) => fromJsonObj o aiText
      | _ => heuristicParse aiText
  | none => heuristicParse aiText

/-- Balanced-brace scan: consume until the matching close of the first open
brace, respecting string literals and escapes; returns the consumed
characters. -/
def balGo : List Char → Nat → Bool → Bool → List Char → Option (List Char)
  | [], _, _, _, _ => none
  | c :: rest, depth, inStr, esc, acc =>
      let acc2 := c :: acc
      if esc then balGo rest depth inStr false acc2
      else if inStr then
        if c = '\\' then balGo rest depth true true acc2
        else if c = '"' then balGo rest depth false false acc2
        else balGo rest depth true false acc2
      else if c = '"' then balGo rest depth true false acc2
      else if c = '\x7b' then balGo rest (depth + 1) false false acc2
      else if c = '\x7d' then
        if depth ≤ 1 then some acc2.reverse else balGo rest (depth - 1) false false acc2
      else balGo rest depth false false acc2

/-- Modelled from the spec (sections 4.10 and 9, `generate` contract): the
FIRST BALANCED brace group of the response text, found by brace counting
that respects string literals and escapes.  This is the extraction the spec
prescribes; the source instead uses the greedy regex of `jsonCandidate`. -/
def firstBalancedGroup (t : String) : Option String :=
  match t.data.findIdx? (fun c => c = '\x7b') with
  | some i => (balGo (t.data.drop i) 0 false false []).map String.mk
  | none => none

/-- Modelled from the spec: `parseAIResponse` as the spec states it, with
the first balanced group as the JSON candidate and the same fallback. -/
def specBalancedParse (aiText : String) : AIParsed :=
  match firstBalancedGroup aiText with
  | some cand =>
      match jsonParse cand with
      | some (JVal.jobj o) => fromJsonObj o aiText
      | _ => heuristicParse aiText
  | none => heuristicParse aiText

example :
    (parseAIResponse "pre \x7b\"rootCause\": \"X\", \"failureStage\": \"S\", \"suggestedFix\": \"F\"\x7d post").rootCause =
      JVal.jstr "X" := by rfl

example : firstBalancedGroup "a \x7b\"k\": \x7b\"n\": 1\x7d\x7d b \x7bc\x7d" =
    some "\x7b\"k\": \x7b\"n\": 1\x7d\x7d" := by rfl

/-- A similar past case as supplied to `RAGService.extractContext`
(ragService.js); possibly-absent fields are `Option`s. -/
structure SimilarCase where
  similarity : Option Rat
  workflowName : String
  runCreatedAt : String
  content : Option String
  rootCause : Option String
  suggestedFix : Option String
deriving DecidableEq, Repr

/-- A retained case inside the RAG context (ragService.js lines 104-111). -/
structure CtxCase where
  similarity : Rat
  workflowName : String
  date : String
  logSnippet : String
  rootCause : Option String
  suggestedFix : Option String
deriving DecidableEq, Repr

/-- A suggested solution collected from a retained case. -/
structure SuggestedSolution where
  solution : String
  similarity : Rat
deriving DecidableEq, Repr

/-- The RAG context object (ragService.js lines 90-131). -/
structure RagContext where
  hasSimilarCases : Bool
  similarCases : List CtxCase
  commonPatterns : List String
  suggestedSolutions : List SuggestedSolution
deriving DecidableEq, Repr

/-- The effective similarity of a case: `case_.similarity || 0`. -/
def caseSim (c : SimilarCase) : Rat :=
  match c.similarity with
  | some q => q
  | none => 0

/-- Model of `x || null` on an optional string. -/
def jsNullIfFalsy (o : Option String) : Option String :=
  if truthyStr o then o else none

/-- Order-preserving deduplication (`[...new Set(xs)]` keeps first
occurrences in insertion order). -/
def dedupFirstGo (seen : List String) : List String → List String
  | [] => []
  | x :: xs =>
      if seen.contains x then dedupFirstGo seen xs
      else x :: dedupFirstGo (x :: seen) xs

/-- Embedding of `RAGService.extractContext` (ragService.js lines 90-131):
cases with similarity below 0.6 are skipped; `hasSimilarCases` reflects the
RAW input list. -/
def extractContext (similarCases : List SimilarCase) : RagContext :=
  let kept := similarCases.filter (fun c => !decide (caseSim c < 0.6))
  { hasSimilarCases := !similarCases.isEmpty
    similarCases := kept.map (fun c =>
      { similarity := caseSim c
        workflowName := c.workflowName
        date := c.runCreatedAt
        logSnippet := match c.content with
          | some s => strTake 200 s
          | none => ""
        rootCause := jsNullIfFalsy c.rootCause
        suggestedFix := jsNullIfFalsy c.suggestedFix })
    commonPatterns := dedupFirstGo []
      (kept.filterMap (fun c => if truthyStr c.rootCause then c.rootCause else none))
    suggestedSolutions := kept.filterMap (fun c =>
      match c.suggestedFix with
      | some f => if f.isEmpty then none else some { solution := f, similarity := caseSim c }
      | none => none) }

/-- Model of `(x * 100).toFixed(0)` for a similarity (nearest integer, ties
upward). -/
def pctFixed (q : Rat) : String :=
  toString (Rat.floor (q * 100 + 1 / 2))

/-- Model of `v || 0` on an optional number. -/
def jsOr0 (o : Option Rat) : Rat :=
  match o with
  | some q => q
  | none => 0

/-- Embedding of `RAGService.assessConfidence` (ragService.js lines
217-246). -/
def assessConfidence (context : RagContext) : Confidence :=
  if !context.hasSimilarCases || context.similarCases.length = 0 then
    { score := 0.5, reason := "No similar past failures found" }
  else
    let topSimilarity := jsOr0 ((context.similarCases.head?).map CtxCase.similarity)
    let caseCount := context.similarCases.length
    if 0.9 ≤ topSimilarity ∧ 2 ≤ caseCount then
      { score := 0.95
        reason := "Very high confidence: " ++ toString caseCount ++
          " highly similar past case(s) (" ++ pctFixed topSimilarity ++ "% match)" }
    else if 0.8 ≤ topSimilarity then
      { score := 0.85
        reason := "High confidence: Similar past case found (" ++ pctFixed topSimilarity ++
          "% match)" }
    else if 0.7 ≤ topSimilarity then
      { score := 0.75
        reason := "Good confidence: Moderately similar past case (" ++ pctFixed topSimilarity ++
          "% match)" }
    else
      { score := 0.6, reason := "Fair confidence: Some similar patterns found" }

example :
    (assessConfidence (extractContext
      [{ similarity := some 0.92, workflowName := "w", runCreatedAt := "d", content := none,
         rootCause := none, suggestedFix := none },
       { similarity := some 0.91, workflowName := "w2", runCreatedAt := "d", content := none,
         rootCause := none, suggestedFix := none }])).score = 0.95 := by
  norm_num [assessConfidence, extractContext, caseSim, jsOr0]

example :
    (assessConfidence (extractContext
      [{ similarity := some 0.3, workflowName := "w", runCreatedAt := "d", content := none,
         rootCause := none, suggestedFix := none }])).score = 0.5 := by
  norm_num [assessConfidence, extractContext, caseSim, jsOr0]

theorem detect_intentional_some {chunks : List Chunk} {errors : List DetectedError}
    {r : Classification} (h : detectIntentionalFailure chunks errors = some r) :
    r.failureType = "INTENTIONAL" ∧ r.priority = 5 ∧ r.skipAI = true ∧
    r.rootCause.isSome ∧ r.failureStage.isSome ∧ r.suggestedFix.isSome := by
  simp only [detectIntentionalFailure] at h
  split at h
  · injection h with h2
    subst h2
    exact ⟨rfl, rfl, rfl, rfl, rfl, rfl⟩
  · split at h
    · split at h
      · injection h with h2
        subst h2
        exact ⟨rfl, rfl, rfl, rfl, rfl, rfl⟩
      · exact Option.noConfusion h
    · exact Option.noConfusion h

theorem detect_test_some {errors : List DetectedError} {r : Classification}
    (h : detectTestFailure errors = some r) :
    r.failureType = "TEST" ∧ r.priority = 1 ∧ r.skipAI = false := by
  simp only [detectTestFailure] at h
  split at h
  · injection h with h2
    subst h2
    exact ⟨rfl, rfl, rfl⟩
  · exact Option.noConfusion h

theorem detect_build_some {errors : List DetectedError} {r : Classification}
    (h : detectBuildFailure errors = some r) :
    r.failureType = "BUILD" ∧ r.priority = 2 ∧ r.skipAI = false := by
  simp only [detectBuildFailure] at h
  split at h
  · injection h with h2
    subst h2
    exact ⟨rfl, rfl, rfl⟩
  · exact Option.noConfusion h

theorem detect_runtime_some {errors : List DetectedError} {r : Classification}
    (h : detectRuntimeError errors = some r) :
    r.failureType = "RUNTIME" ∧ r.priority = 3 ∧ r.skipAI = false := by
  simp only [detectRuntimeError] at h
  split at h
  · injection h with h2
    subst h2
    exact ⟨rfl, rfl, rfl⟩
  · exact Option.noConfusion h

theorem detect_infra_some {errors : List DetectedError} {r : Classification}
    (h : detectInfraFailure errors = some r) :
    r.failureType = "INFRA" ∧ r.priority = 4 ∧ r.skipAI = false := by
  simp only [detectInfraFailure] at h
  split at h
  · injection h with h2
    subst h2
    exact ⟨rfl, rfl, rfl⟩
  · exact Option.noConfusion h

theorem detect_security_some {errors : List DetectedError} {chunks : List Chunk}
    {r : Classification} (h : detectSecurityFailure errors chunks = some r) :
    r.failureType = "SECURITY" ∧ r.priority = 5 ∧ r.skipAI = false := by
  simp only [detectSecurityFailure] at h
  split at h
  · injection h with h2
    subst h2
    exact ⟨rfl, rfl, rfl⟩
  · exact Option.noConfusion h

theorem detect_timeout_some {errors : List DetectedError} {chunks : List Chunk}
    {r : Classification} (h : detectTimeoutFailure errors chunks = some r) :
    r.failureType = "TIMEOUT" ∧ r.priority = 6 ∧ r.skipAI = false := by
  simp only [detectTimeoutFailure] at h
  split at h
  · injection h with h2
    subst h2
    exact ⟨rfl, rfl, rfl⟩
  · exact Option.noConfusion h

theorem detect_dependency_some {errors : List DetectedError} {chunks : List Chunk}
    {r : Classification} (h : detectDependencyFailure errors chunks = some r) :
    r.failureType = "DEPENDENCY" ∧ r.priority = 7 ∧ r.skipAI = false := by
  simp only [detectDependencyFailure] at h
  split at h
  · injection h with h2
    subst h2
    exact ⟨rfl, rfl, rfl⟩
  · exact Option.noConfusion h

theorem detect_config_some {errors : List DetectedError} {chunks : List Chunk}
    {r : Classification} (h : detectConfigFailure errors chunks = some r) :
    r.failureType = "CONFIG" ∧ r.priority = 8 ∧ r.skipAI = false := by
  simp only [detectConfigFailure] at h
  split at h
  · injection h with h2
    subst h2
    exact ⟨rfl, rfl, rfl⟩
  · exact Option.noConfusion h

theorem detect_permission_some {errors : List DetectedError} {chunks : List Chunk}
    {r : Classification} (h : detectPermissionFailure errors chunks = some r) :
    r.failureType = "PERMISSION" ∧ r.priority = 9 ∧ r.skipAI = false := by
  simp only [detectPermissionFailure] at h
  split at h
  · injection h with h2
    subst h2
    exact ⟨rfl, rfl, rfl⟩
  · exact Option.noConfusion h

theorem detect_lint_some {errors : List DetectedError} {r : Classification}
    (h : detectLintIssue errors = some r) :
    r.failureType = "LINT" ∧ r.priority = 10 ∧ r.skipAI = false := by
  simp only [detectLintIssue] at h
  split at h
  · injection h with h2
    subst h2
    exact ⟨rfl, rfl, rfl⟩
  · exact Option.noConfusion h

theorem classify_no_intentional {chunks : List Chunk} {errors : List DetectedError}
    (hI : detectIntentionalFailure chunks errors = none) :
    (classify chunks errors).failureType ≠ "INTENTIONAL" := by
  cases hT : detectTestFailure errors with
  | some r =>
      have hc : classify chunks errors = r := by simp only [classify, hI, hT]
      rw [hc, (detect_test_some hT).1]
      decide
  | none =>
  cases hB : detectBuildFailure errors with
  | some r =>
      have hc : classify chunks errors = r := by simp only [classify, hI, hT, hB]
      rw [hc, (detect_build_some hB).1]
      decide
  | none =>
  cases hR : detectRuntimeError errors with
  | some r =>
      have hc : classify chunks errors = r := by simp only [classify, hI, hT, hB, hR]
      rw [hc, (detect_runtime_some hR).1]
      decide
  | none =>
  cases hN : detectInfraFailure errors with
  | some r =>
      have hc : classify chunks errors = r := by simp only [classify, hI, hT, hB, hR, hN]
      rw [hc, (detect_infra_some hN).1]
      decide
  | none =>
  cases hS : detectSecurityFailure errors chunks with
  | some r =>
      have hc : classify chunks errors = r := by simp only [classify, hI, hT, hB, hR, hN, hS]
      rw [hc, (detect_security_some hS).1]
      decide
  | none =>
  cases hO : detectTimeoutFailure errors chunks with
  | some r =>
      have hc : classify chunks errors = r := by simp only [classify, hI, hT, hB, hR, hN, hS, hO]
      rw [hc, (detect_timeout_some hO).1]
      decide
  | none =>
  cases hD : detectDependencyFailure errors chunks with
  | some r =>
      have hc : classify chunks errors = r := by
        simp only [classify, hI, hT, hB, hR, hN, hS, hO, hD]
      rw [hc, (detect_dependency_some hD).1]
      decide
  | none =>
  cases hC : detectConfigFailure errors chunks with
  | some r =>
      have hc : classify chunks errors = r := by
        simp only [classify, hI, hT, hB, hR, hN, hS, hO, hD, hC]
      rw [hc, (detect_config_some hC).1]
      decide
  | none =>
  cases hP : detectPermissionFailure errors chunks with
  | some r =>
      have hc : classify chunks errors = r := by
        simp only [classify, hI, hT, hB, hR, hN, hS, hO, hD, hC, hP]
      rw [hc, (detect_permission_some hP).1]
      decide
  | none =>
  cases hL : detectLintIssue errors with
  | some r =>
      have hc : classify chunks errors = r := by
        simp only [classify, hI, hT, hB, hR, hN, hS, hO, hD, hC, hP, hL]
      rw [hc, (detect_lint_some hL).1]
      decide
  | none =>
      have hc : (classify chunks errors).failureType = "UNKNOWN" := by
        simp only [classify, hI, hT, hB, hR, hN, hS, hO, hD, hC, hP, hL]
      rw [hc]
      decide

/-- C1: whenever the classifier emits INTENTIONAL (triggered by an Exit
Failure error, by an error message matching the exit regex, or by a
force/fail step name with errors), the classification carries
`skipAI = true`, its priority lies in set containing 0 and 5, the classifier
itself supplies the full narrative triple, and the worker stores the
classifier narrative with `usedAI = false` regardless of any AI result. -/
theorem intentional_short_circuit (chunks : List Chunk) (errors : List DetectedError)
    (h : (classify chunks errors).failureType = "INTENTIONAL") :
    (classify chunks errors).skipAI = true ∧
    ((classify chunks errors).priority = 0 ∨ (classify chunks errors).priority = 5) ∧
    (classify chunks errors).rootCause.isSome ∧
    (classify chunks errors).failureStage.isSome ∧
    (classify chunks errors).suggestedFix.isSome ∧
    ∀ ai : AIAnalysis,
      (workerAnalysisResult (classify chunks errors) ai).usedAI = false ∧
      (workerAnalysisResult (classify chunks errors) ai).rootCause =
        (classify chunks errors).rootCause ∧
      (workerAnalysisResult (classify chunks errors) ai).suggestedFix =
        (classify chunks errors).suggestedFix := by
  cases hI : detectIntentionalFailure chunks errors with
  | some r =>
      have hc : classify chunks errors = r := by simp only [classify, hI]
      obtain ⟨_, h2, h3, h4, h5, h6⟩ := detect_intentional_some hI
      rw [hc]
      refine ⟨h3, Or.inr h2, h4, h5, h6, fun ai => ?_⟩
      simp [workerAnalysisResult, h3]
  | none => exact absurd h (classify_no_intentional hI)

/-- The concrete Exit Failure error used to exercise the INTENTIONAL
short-circuit. -/
def exitFailureSample : DetectedError :=
  { category := "Exit Failure", errorMessage := "exit 1", confidence := "high",
    evidenceLogLines := ["exit 1"], isIntentionalFailure := true }

/-- Witness for C1: a single Exit Failure error produces an INTENTIONAL
classification, and the theorem applies. -/
theorem intentional_short_circuit_witness :
    (classify [] [exitFailureSample]).failureType = "INTENTIONAL" ∧
    ((classify [] [exitFailureSample]).skipAI = true ∧
     ((classify [] [exitFailureSample]).priority = 0 ∨
      (classify [] [exitFailureSample]).priority = 5) ∧
     (classify [] [exitFailureSample]).rootCause.isSome ∧
     (classify [] [exitFailureSample]).failureStage.isSome ∧
     (classify [] [exitFailureSample]).suggestedFix.isSome ∧
     ∀ ai : AIAnalysis,
       (workerAnalysisResult (classify [] [exitFailureSample]) ai).usedAI = false ∧
       (workerAnalysisResult (classify [] [exitFailureSample]) ai).rootCause =
         (classify [] [exitFailureSample]).rootCause ∧
       (workerAnalysisResult (classify [] [exitFailureSample]) ai).suggestedFix =
         (classify [] [exitFailureSample]).suggestedFix) :=
  ⟨by decide, intentional_short_circuit _ _ (by decide)⟩

/-- C2: detection is strict first-match-wins; when the detected errors
contain at least one test-failure match and the INTENTIONAL detector (the
only earlier category) does not fire, the classifier returns TEST with
priority 1 regardless of any lower-priority co-occurring matches. -/
theorem test_first_match_wins (chunks : List Chunk) (errors : List DetectedError)
    (htest : errors.any (fun e =>
      e.category = "Test Failure" || testPatterns.any (fun p => p e.errorMessage)) = true)
    (hI : detectIntentionalFailure chunks errors = none) :
    (classify chunks errors).failureType = "TEST" ∧
    (classify chunks errors).priority = 1 ∧
    (classify chunks errors).skipAI = false := by
  have hfil : 0 < (errors.filter (fun e =>
      e.category = "Test Failure" || testPatterns.any (fun p => p e.errorMessage))).length := by
    rcases List.any_eq_true.mp htest with ⟨e, he, hpe⟩
    have hm : e ∈ errors.filter (fun e =>
        e.category = "Test Failure" || testPatterns.any (fun p => p e.errorMessage)) :=
      List.mem_filter.mpr ⟨he, hpe⟩
    exact List.length_pos.mpr (fun hnil => by simp [hnil] at hm)
  obtain ⟨r, hT⟩ : ∃ r, detectTestFailure errors = some r := by
    simp only [detectTestFailure]
    rw [if_pos hfil]
    exact ⟨_, rfl⟩
  have hc : classify chunks errors = r := by simp only [classify, hI, hT]
  rw [hc]
  exact detect_test_some hT

/-- The concrete error pair (a test failure plus a co-occurring lint-style
generic error) used to exercise the TEST priority rule. -/
def testPlusLintSample : List DetectedError :=
  [{ category := "Test Failure", errorMessage := "AssertionError: expected 1 to equal 2",
     confidence := "high", evidenceLogLines := [] },
   { category := "Error", errorMessage := "ERROR: eslint warning no-unused-vars",
     confidence := "medium", evidenceLogLines := [] }]

/-- Witness for C2: an AssertionError-derived Test Failure error together
with a lower-priority lint-style error classifies as TEST with priority 1. -/
theorem test_first_match_wins_witness :
    (classify [] testPlusLintSample).failureType = "TEST" ∧
    (classify [] testPlusLintSample).priority = 1 ∧
    (classify [] testPlusLintSample).skipAI = false :=
  test_first_match_wins _ _ (by decide) (by decide)

/-- C10 (implicit): when every detected error is a generic `Error` record of
medium confidence and nothing matches any higher-precedence detector, the
classifier returns LINT with priority 10 and `skipAI = false`, not UNKNOWN. -/
theorem generic_error_classified_lint (chunks : List Chunk) (errors : List DetectedError)
    (hne : errors ≠ [])
    (hall : ∀ e ∈ errors, e.category = "Error" ∧ e.confidence = "medium")
    (h1 : detectIntentionalFailure chunks errors = none)
    (h2 : detectTestFailure errors = none)
    (h3 : detectBuildFailure errors = none)
    (h4 : detectRuntimeError errors = none)
    (h5 : detectInfraFailure errors = none)
    (h6 : detectSecurityFailure errors chunks = none)
    (h7 : detectTimeoutFailure errors chunks = none)
    (h8 : detectDependencyFailure errors chunks = none)
    (h9 : detectConfigFailure errors chunks = none)
    (h10 : detectPermissionFailure errors chunks = none) :
    (classify chunks errors).failureType = "LINT" ∧
    (classify chunks errors).priority = 10 ∧
    (classify chunks errors).skipAI = false ∧
    (classify chunks errors).failureType ≠ "UNKNOWN" := by
  have hfil : 0 < (errors.filter (fun e =>
      (e.category = "Error" && e.confidence = "medium") ||
        lintPatterns.any (fun p => p e.errorMessage))).length := by
    cases errors with
    | nil => exact absurd rfl hne
    | cons e es =>
        have hm : e ∈ (e :: es).filter (fun e =>
            (e.category = "Error" && e.confidence = "medium") ||
              lintPatterns.any (fun p => p e.errorMessage)) := by
          refine List.mem_filter.mpr ⟨List.mem_cons_self e es, ?_⟩
          have he := hall e (List.mem_cons_self e es)
          simp [he.1, he.2]
        exact List.length_pos.mpr (fun hnil => by simp [hnil] at hm)
  obtain ⟨r, hL⟩ : ∃ r, detectLintIssue errors = some r := by
    simp only [detectLintIssue]
    rw [if_pos hfil]
    exact ⟨_, rfl⟩
  have hc : classify chunks errors = r := by
    simp only [classify, h1, h2, h3, h4, h5, h6, h7, h8, h9, h10, hL]
  rw [hc]
  obtain ⟨ha, hb, hd⟩ := detect_lint_some hL
  exact ⟨ha, hb, hd, by rw [ha]; decide⟩

/-- The concrete bare-`ERROR` generic error used to exercise the LINT
fallthrough. -/
def bareErrorSample : DetectedError :=
  { category := "Error", errorMessage := "ERROR", confidence := "medium",
    evidenceLogLines := ["ERROR"] }

/-- Witness for C10: a log whose only detected error is a bare `ERROR` line
of medium confidence is classified LINT. -/
theorem generic_error_classified_lint_witness :
    (classify [] [bareErrorSample]).failureType = "LINT" ∧
    (classify [] [bareErrorSample]).priority = 10 ∧
    (classify [] [bareErrorSample]).skipAI = false ∧
    (classify [] [bareErrorSample]).failureType ≠ "UNKNOWN" :=
  generic_error_classified_lint _ _ (by decide) (by decide) (by decide) (by decide) (by decide)
    (by decide) (by decide) (by decide) (by decide) (by decide) (by decide) (by decide)

/-- The retained similarities of the RAG context: cases with similarity at
least 0.6, in retrieval order. -/
def retainedSims (cases : List SimilarCase) : List Rat :=
  (cases.filter (fun c => decide (0.6 ≤ caseSim c))).map caseSim

/-- The top (maximum) retained similarity, 0 when none. -/
def topSim (cases : List SimilarCase) : Rat :=
  (retainedSims cases).foldr max 0

theorem foldr_max_le (t : List Rat) (a : Rat) (ha : 0 ≤ a) (h : ∀ x ∈ t, x ≤ a) :
    t.foldr max 0 ≤ a := by
  induction t with
  | nil => exact ha
  | cons b t2 ih =>
      have hb := h b (List.mem_cons_self b t2)
      have ht2 := ih (fun x hx => h x (List.mem_cons_of_mem b hx))
      simpa using max_le hb ht2

theorem foldr_max_head (l : List Rat) (hp : List.Pairwise (fun a b => b ≤ a) l)
    (hnn : ∀ x ∈ l, 0 ≤ x) (hne : l ≠ []) : l.foldr max 0 = l.head?.getD 0 := by
  cases l with
  | nil => exact absurd rfl hne
  | cons a t =>
      have h1 := (List.pairwise_cons.mp hp).1
      have ha := hnn a (List.mem_cons_self a t)
      have : t.foldr max 0 ≤ a := foldr_max_le t a ha h1
      simp [max_eq_left this]

theorem retained_filter_eq (cases : List SimilarCase) :
    cases.filter (fun c => !decide (caseSim c < 0.6)) =
      cases.filter (fun c => decide (0.6 ≤ caseSim c)) := by
  induction cases with
  | nil => rfl
  | cons c cs ih =>
      by_cases h : caseSim c < 0.6
      · simp [List.filter_cons, h, not_le.mpr h, ih]
      · simp [List.filter_cons, h, not_lt.mp h, ih]

/-- C6: RAG confidence synthesis.  Over the retained cases (similarity at
least 0.6, listed in descending-similarity order): no cases gives score 0.5;
at least two cases with top similarity at least 0.9 gives 0.95; otherwise
top at least 0.8 gives 0.85; otherwise top at least 0.7 gives 0.75;
otherwise 0.6. -/
theorem rag_confidence_synthesis (cases : List SimilarCase)
    (hsorted : List.Pairwise (fun a b => caseSim b ≤ caseSim a) cases) :
    (retainedSims cases = [] → (assessConfidence (extractContext cases)).score = 0.5) ∧
    (retainedSims cases ≠ [] →
      (2 ≤ (retainedSims cases).length ∧ 0.9 ≤ topSim cases →
        (assessConfidence (extractContext cases)).score = 0.95) ∧
      (¬(2 ≤ (retainedSims cases).length ∧ 0.9 ≤ topSim cases) → 0.8 ≤ topSim cases →
        (assessConfidence (extractContext cases)).score = 0.85) ∧
      (¬(2 ≤ (retainedSims cases).length ∧ 0.9 ≤ topSim cases) → ¬0.8 ≤ topSim cases →
        0.7 ≤ topSim cases → (assessConfidence (extractContext cases)).score = 0.75) ∧
      (¬(2 ≤ (retainedSims cases).length ∧ 0.9 ≤ topSim cases) → ¬0.8 ≤ topSim cases →
        ¬0.7 ≤ topSim cases → (assessConfidence (extractContext cases)).score = 0.6)) := by
  constructor
  · intro hnil
    have hkept : cases.filter (fun c => !decide (caseSim c < 0.6)) = [] := by
      rw [retained_filter_eq]
      exact List.map_eq_nil_iff.mp hnil
    have hctx : (extractContext cases).similarCases = [] := by
      simp [extractContext, hkept]
    simp [assessConfidence, hctx]
  · intro hne
    have hkne : cases.filter (fun c => !decide (caseSim c < 0.6)) ≠ [] := by
      rw [retained_filter_eq]
      intro h
      exact hne (by simp [retainedSims, h])
    obtain ⟨k0, krest, hk⟩ := List.exists_cons_of_ne_nil hkne
    have hcne : cases ≠ [] := by
      intro h
      rw [h] at hk
      simp at hk
    have hH : (extractContext cases).hasSimilarCases = true := by
      simp [extractContext, List.isEmpty_iff, hcne]
    have hLlen : (extractContext cases).similarCases.length =
        (retainedSims cases).length := by
      simp [extractContext, retainedSims, retained_filter_eq]
    have hLheadSim : (extractContext cases).similarCases.head?.map CtxCase.similarity =
        some (caseSim k0) := by
      simp [extractContext, hk]
    have hknn : ∀ x ∈ retainedSims cases, (0 : Rat) ≤ x := by
      intro x hx
      rcases List.mem_map.mp hx with ⟨c, hc, rfl⟩
      have h6 : (0.6 : Rat) ≤ caseSim c := by
        have := List.of_mem_filter hc
        simpa using this
      linarith
    have hkp : List.Pairwise (fun a b => b ≤ a) (retainedSims cases) := by
      refine List.pairwise_map.mpr ?_
      exact List.Pairwise.filter _ hsorted
    have hhead : (retainedSims cases).head? = some (caseSim k0) := by
      have : retainedSims cases = caseSim k0 :: krest.map caseSim := by
        simp [retainedSims, ← retained_filter_eq, hk]
      simp [this]
    have htop : topSim cases = caseSim k0 := by
      rw [topSim, foldr_max_head _ hkp hknn hne, hhead]
      rfl
    have hlen0 : ¬((extractContext cases).similarCases.length = 0) := by
      rw [hLlen]
      simp [List.length_pos, hne]
    have hcond : (!(extractContext cases).hasSimilarCases ||
        decide ((extractContext cases).similarCases.length = 0)) ≠ true := by
      simp [hH, hlen0]
    have hscore : (assessConfidence (extractContext cases)).score =
        (if 0.9 ≤ caseSim k0 ∧ 2 ≤ (retainedSims cases).length then (0.95 : Rat)
         else if 0.8 ≤ caseSim k0 then 0.85
         else if 0.7 ≤ caseSim k0 then 0.75
         else 0.6) := by
      simp only [assessConfidence]
      rw [if_neg hcond, hLheadSim, hLlen]
      show Confidence.score
        (if 0.9 ≤ jsOr0 (some (caseSim k0)) ∧ 2 ≤ (retainedSims cases).length then _
         else if 0.8 ≤ jsOr0 (some (caseSim k0)) then _
         else if 0.7 ≤ jsOr0 (some (caseSim k0)) then _ else _) = _
      show Confidence.score
        (if 0.9 ≤ caseSim k0 ∧ 2 ≤ (retainedSims cases).length then _
         else if 0.8 ≤ caseSim k0 then _
         else if 0.7 ≤ caseSim k0 then _ else _) = _
      split
      · rfl
      · split
        · rfl
        · split
          · rfl
          · rfl
    refine ⟨fun hc => ?_, fun hc h8 => ?_, fun hc h8 h7 => ?_, fun hc h8 h7 => ?_⟩
    · rw [hscore, if_pos ⟨htop ▸ hc.2, hc.1⟩]
    · rw [hscore, if_neg (fun hx => hc ⟨hx.2, htop ▸ hx.1⟩), if_pos (htop ▸ h8)]
    · rw [hscore, if_neg (fun hx => hc ⟨hx.2, htop ▸ hx.1⟩), if_neg (fun hx => h8 (htop ▸ hx)),
          if_pos (htop ▸ h7)]
    · rw [hscore, if_neg (fun hx => hc ⟨hx.2, htop ▸ hx.1⟩), if_neg (fun hx => h8 (htop ▸ hx)),
          if_neg (fun hx => h7 (htop ▸ hx))]

/-- The concrete sorted case list (similarities 0.95 and 0.92) used to
exercise the RAG confidence synthesis. -/
def ragSampleCases : List SimilarCase :=
  [{ similarity := some 0.95, workflowName := "build", runCreatedAt := "2024-01-01",
     content := none, rootCause := some "missing module", suggestedFix := some "npm install" },
   { similarity := some 0.92, workflowName := "build", runCreatedAt := "2024-01-02",
     content := none, rootCause := none, suggestedFix := none }]

/-- Witness for C6: two retained cases with top similarity 0.95 yield
confidence 0.95. -/
theorem rag_confidence_synthesis_witness :
    (assessConfidence (extractContext ragSampleCases)).score = 0.95 := by
  have hsorted : List.Pairwise (fun a b => caseSim b ≤ caseSim a) ragSampleCases := by
    norm_num [ragSampleCases, List.pairwise_cons, caseSim]
  have hne : retainedSims ragSampleCases ≠ [] := by
    norm_num [retainedSims, ragSampleCases, caseSim]
    simp
  have hlen : 2 ≤ (retainedSims ragSampleCases).length := by
    norm_num [retainedSims, ragSampleCases, caseSim]
  have htop : (0.9 : Rat) ≤ topSim ragSampleCases := by
    norm_num [topSim, retainedSims, ragSampleCases, caseSim]
  exact ((rag_confidence_synthesis ragSampleCases hsorted).2 hne).1 ⟨hlen, htop⟩

theorem chunkLoopGo_closed (name : String) (st : Int) (sl : List String) :
    ∀ fuel base i, sl.length ≤ i + 1000 * fuel →
      chunkLoopGo name st sl fuel base i =
        (List.range ((sl.length - i + 999) / 1000)).map
          (fun k => partChunk name st sl (base + k) (i + 1000 * k)) := by
  intro fuel
  induction fuel with
  | zero =>
      intro base i h
      have h0 : sl.length - i = 0 := by omega
      simp [chunkLoopGo, h0]
  | succ fuel ih =>
      intro base i h
      by_cases hlt : i < sl.length
      · have hrec := ih (base + 1) (i + 1000) (by omega)
        simp only [chunkLoopGo, MAX_CHUNK_LINES]
        rw [if_pos hlt, hrec]
        have hcount : (sl.length - i + 999) / 1000 = (sl.length - (i + 1000) + 999) / 1000 + 1 := by
          omega
        rw [hcount, List.range_succ_eq_map]
        simp only [List.map_cons, List.map_map]
        congr 1
        apply List.map_congr_left
        intro k _
        simp only [Function.comp]
        have e1 : base + 1 + k = base + (k + 1) := by omega
        have e2 : i + 1000 + 1000 * k = i + 1000 * (k + 1) := by ring
        rw [e1, e2]
      · have h0 : sl.length - i = 0 := by omega
        simp only [chunkLoopGo, MAX_CHUNK_LINES]
        rw [if_neg hlt, h0]
        simp

theorem stepChunkRecords_single (step : Step) (sl : List String) (base : Nat)
    (h : sl.length ≤ 1000) :
    stepChunkRecords step sl base = [mkChunk base step.name sl step.startLine step.endLine] := by
  simp only [stepChunkRecords, MAX_CHUNK_LINES]
  rw [if_pos h]

theorem stepChunkRecords_multi (step : Step) (sl : List String) (base : Nat)
    (h : 1000 < sl.length) :
    stepChunkRecords step sl base =
      (List.range ((sl.length + 999) / 1000)).map
        (fun k => partChunk step.name step.startLine sl (base + k) (1000 * k)) := by
  simp only [stepChunkRecords, MAX_CHUNK_LINES]
  rw [if_neg (by omega)]
  rw [chunkLoopGo_closed step.name step.startLine sl sl.length base 0 (by omega)]
  simp

/-- C4: a step of N sliced lines yields exactly one chunk named after the
step when N is at most 1000, and exactly (N + 999) / 1000 chunks named
`<step> (part k)` for k starting at 1, each of at most 1000 lines, when
N exceeds 1000. -/
theorem chunker_per_step (step : Step) (stepLines : List String) (base : Nat) :
    (stepLines.length ≤ 1000 →
      (stepChunkRecords step stepLines base).length = 1 ∧
      ∀ c ∈ stepChunkRecords step stepLines base,
        c.stepName = step.name ∧ c.lineCount = stepLines.length) ∧
    (1000 < stepLines.length →
      (stepChunkRecords step stepLines base).length = (stepLines.length + 999) / 1000 ∧
      ∀ k, ∀ hk : k < (stepChunkRecords step stepLines base).length,
        ((stepChunkRecords step stepLines base).get ⟨k, hk⟩).stepName =
          step.name ++ " (part " ++ toString (k + 1) ++ ")" ∧
        ((stepChunkRecords step stepLines base).get ⟨k, hk⟩).lineCount ≤ 1000) := by
  constructor
  · intro h
    rw [stepChunkRecords_single step stepLines base h]
    refine ⟨rfl, fun c hc => ?_⟩
    rcases List.mem_singleton.mp hc with rfl
    exact ⟨rfl, rfl⟩
  · intro h
    rw [stepChunkRecords_multi step stepLines base h]
    refine ⟨by simp, fun k hk => ?_⟩
    have hk2 : k < (stepLines.length + 999) / 1000 := by simpa using hk
    have hget : ((List.range ((stepLines.length + 999) / 1000)).map
        (fun k => partChunk step.name step.startLine stepLines (base + k) (1000 * k))).get
          ⟨k, hk⟩ = partChunk step.name step.startLine stepLines (base + k) (1000 * k) := by
      simp
    rw [hget]
    constructor
    · simp only [partChunk, mkChunk]
      have : 1000 * k / MAX_CHUNK_LINES + 1 = k + 1 := by
        simp [MAX_CHUNK_LINES, Nat.mul_div_cancel_left]
      rw [this]
    · simp only [partChunk, mkChunk]
      simp [MAX_CHUNK_LINES]

/-- The concrete oversized step used to exercise the chunker. -/
def bigStep : Step :=
  { name := "Full Log", startLine := 0, endLine := 1000 }

/-- Witness for C4: a 1001-line step yields two chunks and a 1000-line or
smaller step yields one. -/
theorem chunker_per_step_witness :
    (stepChunkRecords bigStep (List.replicate 1001 "x") 0).length = 2 ∧
    (stepChunkRecords bigStep (List.replicate 1000 "x") 0).length = 1 := by
  constructor
  · have h := ((chunker_per_step bigStep (List.replicate 1001 "x") 0).2
      (by rw [List.length_replicate]; omega)).1
    rw [h, List.length_replicate]
  · exact ((chunker_per_step bigStep (List.replicate 1000 "x") 0).1
      (by rw [List.length_replicate])).1

theorem stepChunkRecords_indices (step : Step) (sl : List String) (base : Nat) :
    (stepChunkRecords step sl base).map (fun c => c.chunkIndex) =
      (List.range (stepChunkRecords step sl base).length).map (fun k => base + k) := by
  by_cases h : sl.length ≤ 1000
  · rw [stepChunkRecords_single step sl base h]
    simp only [mkChunk, List.map_cons, List.map_nil, List.length_singleton]
    rfl
  · rw [stepChunkRecords_multi step sl base (by omega)]
    simp [List.map_map, Function.comp, partChunk, mkChunk]

theorem createChunksGo_indices (lines : List String) :
    ∀ (steps : List Step) (base : Nat),
      (createChunksGo lines steps base).map (fun c => c.chunkIndex) =
        (List.range (createChunksGo lines steps base).length).map (fun k => base + k) := by
  intro steps
  induction steps with
  | nil => intro base; simp [createChunksGo]
  | cons st sts ih =>
      intro base
      simp only [createChunksGo]
      rw [List.map_append, stepChunkRecords_indices, ih]
      rw [List.length_append, List.range_add, List.map_append, List.map_map]
      congr 1
      apply List.map_congr_left
      intro k _
      simp [Function.comp]
      omega

/-- C7: the chunk indices of one run of the chunker are exactly
0, 1, …, N−1: assigned by a single global counter across all steps,
contiguous, without duplicates or gaps. -/
theorem chunk_indices_dense (steps : List Step) (lines : List String) :
    (createChunks steps lines).map (fun c => c.chunkIndex) =
      List.range (createChunks steps lines).length := by
  have h := createChunksGo_indices lines steps 0
  simpa [createChunks] using h

theorem joinWith_length_congr (s1 s2 : String) (h : s1.length = s2.length) :
    ∀ ls : List String, (joinWith s1 ls).length = (joinWith s2 ls).length := by
  intro ls
  induction ls with
  | nil => rfl
  | cons l rest ih =>
      cases rest with
      | nil => rfl
      | cons r2 rs =>
          simp only [joinWith] at ih ⊢
          simp [String.length_append, ih, h]

theorem mkChunk_token (idx : Nat) (name : String) (ls : List String) (a b : Int) :
    (mkChunk idx name ls a b).tokenCount = ((mkChunk idx name ls a b).content.length + 3) / 4 := by
  simp only [mkChunk, estimateTokens]
  rw [joinWith_length_congr " " "\n" rfl ls]

theorem chunkLoopGo_shape {name : String} {st : Int} {sl : List String} :
    ∀ {fuel base i c}, c ∈ chunkLoopGo name st sl fuel base i →
      ∃ idx nm ls a b, c = mkChunk idx nm ls a b := by
  intro fuel
  induction fuel with
  | zero => intro base i c hc; simp [chunkLoopGo] at hc
  | succ fuel ih =>
      intro base i c hc
      simp only [chunkLoopGo] at hc
      split at hc
      · rcases List.mem_cons.mp hc with rfl | hmem
        · exact ⟨base, _, _, _, _, rfl⟩
        · exact ih hmem
      · simp at hc

theorem chunk_shape {steps : List Step} {lines : List String} :
    ∀ {c}, c ∈ createChunks steps lines → ∃ idx nm ls a b, c = mkChunk idx nm ls a b := by
  suffices h : ∀ (steps : List Step) (base : Nat) {c}, c ∈ createChunksGo lines steps base →
      ∃ idx nm ls a b, c = mkChunk idx nm ls a b by
    intro c hc
    exact h steps 0 hc
  intro steps
  induction steps with
  | nil => intro base c hc; simp [createChunksGo] at hc
  | cons st sts ih =>
      intro base c hc
      simp only [createChunksGo] at hc
      rcases List.mem_append.mp hc with hmem | hmem
      · by_cases hle : (jsSlice lines st.startLine (st.endLine + 1)).length ≤ 1000
        · rw [stepChunkRecords_single st _ base hle] at hmem
          rcases List.mem_singleton.mp hmem with rfl
          exact ⟨base, _, _, _, _, rfl⟩
        · simp only [stepChunkRecords, MAX_CHUNK_LINES] at hmem
          rw [if_neg hle] at hmem
          exact chunkLoopGo_shape hmem
      · exact ih _ hmem

/-- C8: every chunk's token estimate equals the ceiling of its character
count divided by four (the space-joined and newline-joined lengths agree),
and the estimate is monotone in content length across chunks. -/
theorem token_estimate_spec (steps : List Step) (lines : List String) :
    (∀ c ∈ createChunks steps lines, c.tokenCount = (c.content.length + 3) / 4) ∧
    (∀ c ∈ createChunks steps lines, ∀ c2 ∈ createChunks steps lines,
      c.content.length ≤ c2.content.length → c.tokenCount ≤ c2.tokenCount) := by
  have h1 : ∀ c ∈ createChunks steps lines, c.tokenCount = (c.content.length + 3) / 4 := by
    intro c hc
    obtain ⟨idx, nm, ls, a, b, rfl⟩ := chunk_shape hc
    exact mkChunk_token idx nm ls a b
  refine ⟨h1, fun c hc c2 hc2 hlen => ?_⟩
  rw [h1 c hc, h1 c2 hc2]
  exact Nat.div_le_div_right (by omega)

/-- The concrete steps and lines used to exercise the token estimate. -/
def sampleSteps : List Step :=
  [{ name := "Full Log", startLine := 0, endLine := 1 }]

/-- The concrete cleaned lines used to exercise the token estimate. -/
def sampleLines : List String :=
  ["a", "ERROR b"]

/-- The chunk those inputs produce. -/
def sampleChunk : Chunk :=
  { chunkIndex := 0, stepName := "Full Log", content := "a\nERROR b", startLine := 0,
    endLine := 1, lineCount := 2, tokenCount := 3, hasErrors := true, errorCount := 1 }

/-- Witness for C8: on the sample run the token estimate of the produced
chunk is the ceiling of its content length over four. -/
theorem token_estimate_spec_witness :
    sampleChunk.tokenCount = (sampleChunk.content.length + 3) / 4 :=
  (token_estimate_spec sampleSteps sampleLines).1 sampleChunk (by decide)

/-- The value is a JSON string of at most `n` characters. -/
def jstrLenLe (v : JVal) (n : Nat) : Prop :=
  ∃ s, v = JVal.jstr s ∧ s.length ≤ n

theorem strTake_length_le (n : Nat) (s : String) : (strTake n s).length ≤ n :=
  List.length_take_le n s.data

theorem heuristic_bounds (t : String) :
    jstrLenLe (heuristicParse t).rootCause 300 ∧
    jstrLenLe (heuristicParse t).failureStage 100 ∧
    jstrLenLe (heuristicParse t).suggestedFix 500 :=
  ⟨⟨_, rfl, strTake_length_le _ _⟩, ⟨_, rfl, strTake_length_le _ _⟩,
   ⟨_, rfl, strTake_length_le _ _⟩⟩

/-- A response containing two balanced JSON objects; the greedy regex span
(from the first opening to the last closing brace) is not valid JSON. -/
def mixedResponse : String :=
  "\x7b\"rootCause\": \"X\"\x7d junk \x7b\"note\": \"Y\"\x7d"

/-- Counterexample for C5: on a response with two balanced objects the
parser does not behave as parsing the first balanced brace group — the
greedy span fails to parse and the heuristic fallback answers instead. -/
theorem greedy_span_not_first_balanced :
    parseAIResponse mixedResponse ≠ specBalancedParse mixedResponse := by
  intro h
  have h2 := congrArg AIParsed.rootCause h
  rw [show (parseAIResponse mixedResponse).rootCause =
        JVal.jstr "Unable to determine root cause" from rfl,
      show (specBalancedParse mixedResponse).rootCause = JVal.jstr "X" from rfl] at h2
  injection h2 with h3
  exact absurd h3 (by decide)

/-- C5 (amended): the parser attempts JSON parsing on the greedy span from
the first opening brace to the last closing brace (not the first balanced
group); when that span is absent or fails to parse as a JSON object, the
result is the line-heuristic fallback, whose rootCause is at most 300
characters, failureStage at most 100, and suggestedFix at most 500. -/
theorem parse_ai_response_spec (aiText : String) :
    (∃ cand o, jsonCandidate aiText = some cand ∧ jsonParse cand = some (JVal.jobj o) ∧
        parseAIResponse aiText = fromJsonObj o aiText) ∨
    (parseAIResponse aiText = heuristicParse aiText ∧
      jstrLenLe (heuristicParse aiText).rootCause 300 ∧
      jstrLenLe (heuristicParse aiText).failureStage 100 ∧
      jstrLenLe (heuristicParse aiText).suggestedFix 500) := by
  cases hc : jsonCandidate aiText with
  | some cand =>
      cases hp : jsonParse cand with
      | some v =>
          cases v with
          | jobj o =>
              refine Or.inl ⟨cand, o, rfl, hp, ?_⟩
              simp only [parseAIResponse, hc, hp]
          | jnull =>
              refine Or.inr ⟨?_, heuristic_bounds aiText⟩
              simp only [parseAIResponse, hc, hp]
          | jbool b =>
              refine Or.inr ⟨?_, heuristic_bounds aiText⟩
              simp only [parseAIResponse, hc, hp]
          | jnum q =>
              refine Or.inr ⟨?_, heuristic_bounds aiText⟩
              simp only [parseAIResponse, hc, hp]
          | jstr s =>
              refine Or.inr ⟨?_, heuristic_bounds aiText⟩
              simp only [parseAIResponse, hc, hp]
          | jarr xs =>
              refine Or.inr ⟨?_, heuristic_bounds aiText⟩
              simp only [parseAIResponse, hc, hp]
      | none =>
          refine Or.inr ⟨?_, heuristic_bounds aiText⟩
          simp only [parseAIResponse, hc, hp]
  | none =>
      refine Or.inr ⟨?_, heuristic_bounds aiText⟩
      simp only [parseAIResponse, hc]

theorem jsTrimL_subset {c : Char} {l : List Char} (h : c ∈ jsTrimL l) : c ∈ l := by
  have h1 : c ∈ l.dropWhile trimWsChar :=
    (List.rdropWhile_prefix trimWsChar (l.dropWhile trimWsChar)).sublist.mem h
  exact (List.dropWhile_suffix trimWsChar).sublist.mem h1

theorem jsTrimL_idem (l : List Char) : jsTrimL (jsTrimL l) = jsTrimL l := by
  unfold jsTrimL
  have h1 : List.dropWhile trimWsChar
      (List.rdropWhile trimWsChar (List.dropWhile trimWsChar l)) =
      List.rdropWhile trimWsChar (List.dropWhile trimWsChar l) := by
    obtain ⟨t, ht⟩ := List.rdropWhile_prefix trimWsChar (List.dropWhile trimWsChar l)
    rcases hB : List.rdropWhile trimWsChar (List.dropWhile trimWsChar l) with _ | ⟨b, bs⟩
    · rfl
    · have hA : List.dropWhile trimWsChar l = b :: (bs ++ t) := by
        rw [← ht, hB]
        simp
      have hne : List.dropWhile trimWsChar l ≠ [] := by
        rw [hA]
        simp
      have hhead := List.head_dropWhile_not trimWsChar l hne
      have hq : (List.dropWhile trimWsChar l).head hne = b := by
        have h5 := List.head?_eq_head hne
        conv at h5 => lhs; rw [hA]
        simp only [List.head?_cons] at h5
        exact (Option.some.inj h5).symm
      rw [hq] at hhead
      rw [List.dropWhile_cons, if_neg (by simpa using hhead)]
  rw [h1, List.rdropWhile_idempotent]

theorem splitOnChar_no_sep {sep : Char} : ∀ {l x : List Char},
    x ∈ splitOnChar sep l → sep ∉ x := by
  intro l
  induction l with
  | nil =>
      intro x hx
      simp [splitOnChar] at hx
      simp [hx]
  | cons c rest ih =>
      intro x hx
      simp only [splitOnChar] at hx
      by_cases hc : c = sep
      · rw [if_pos hc] at hx
        rcases List.mem_cons.mp hx with rfl | hx2
        · simp
        · exact ih hx2
      · rw [if_neg hc] at hx
        rcases hsp : splitOnChar sep rest with _ | ⟨l0, ls⟩
        · rw [hsp] at hx
          rcases List.mem_singleton.mp hx with rfl
          intro hmem
          rcases List.mem_singleton.mp hmem with rfl
          exact hc rfl
        · rw [hsp] at hx
          rcases List.mem_cons.mp hx with rfl | hx2
          · intro hmem
            rcases List.mem_cons.mp hmem with rfl | hmem2
            · exact hc rfl
            · exact ih (hsp ▸ List.mem_cons_self l0 ls) hmem2
          · exact ih (hsp ▸ List.mem_cons_of_mem l0 hx2)

theorem splitOnChar_chars {sep : Char} : ∀ {l x : List Char} {c : Char},
    x ∈ splitOnChar sep l → c ∈ x → c ∈ l := by
  intro l
  induction l with
  | nil =>
      intro x c hx hc
      simp [splitOnChar] at hx
      subst hx
      simp at hc
  | cons a rest ih =>
      intro x c hx hc
      simp only [splitOnChar] at hx
      by_cases ha : a = sep
      · rw [if_pos ha] at hx
        rcases List.mem_cons.mp hx with rfl | hx2
        · simp at hc
        · exact List.mem_cons_of_mem a (ih hx2 hc)
      · rw [if_neg ha] at hx
        rcases hsp : splitOnChar sep rest with _ | ⟨l0, ls⟩
        · rw [hsp] at hx
          rcases List.mem_singleton.mp hx with rfl
          rcases List.mem_singleton.mp hc with rfl
          exact List.mem_cons_self _ _
        · rw [hsp] at hx
          rcases List.mem_cons.mp hx with rfl | hx2
          · rcases List.mem_cons.mp hc with rfl | hc2
            · exact List.mem_cons_self _ _
            · exact List.mem_cons_of_mem _
                (ih (hsp ▸ List.mem_cons_self l0 ls) hc2)
          · exact List.mem_cons_of_mem _ (ih (hsp ▸ List.mem_cons_of_mem l0 hx2) hc)

/-- The character-level join of cleaned lines with newlines (the shape of
`lines.join('\n')`). -/
def joinNlL : List (List Char) → List Char
  | [] => []
  | [x] => x
  | x :: xs => x ++ '\n' :: joinNlL xs

theorem joinWith_data : ∀ ls : List (List Char),
    (joinWith "\n" (ls.map String.mk)).data = joinNlL ls := by
  intro ls
  induction ls with
  | nil => rfl
  | cons x xs ih =>
      cases xs with
      | nil => rfl
      | cons y ys =>
          simp only [List.map_cons, joinWith, joinNlL] at ih ⊢
          rw [String.data_append, String.data_append, ih]
          simp

theorem splitOnChar_no_sep_self {sep : Char} : ∀ {x : List Char}, sep ∉ x →
    splitOnChar sep x = [x] := by
  intro x
  induction x with
  | nil => intro _; rfl
  | cons c rest ih =>
      intro h
      have hc : ¬c = sep := fun hc => h (hc ▸ List.mem_cons_self c rest)
      have hrest : sep ∉ rest := fun hm => h (List.mem_cons_of_mem c hm)
      simp only [splitOnChar]
      rw [if_neg hc, ih hrest]

theorem splitOnChar_append_cons {sep : Char} : ∀ {x : List Char}, sep ∉ x →
    ∀ rest, splitOnChar sep (x ++ sep :: rest) = x :: splitOnChar sep rest := by
  intro x
  induction x with
  | nil =>
      intro _ rest
      simp [splitOnChar]
  | cons c x2 ih =>
      intro h rest
      have hc : ¬c = sep := fun hc => h (hc ▸ List.mem_cons_self c x2)
      have hx2 : sep ∉ x2 := fun hm => h (List.mem_cons_of_mem c hm)
      simp only [List.cons_append, splitOnChar]
      rw [if_neg hc]
      simp only [List.append_eq]
      rw [ih hx2 rest]

theorem splitOnChar_joinNl : ∀ ls : List (List Char), ls ≠ [] →
    (∀ x ∈ ls, '\n' ∉ x) → splitOnChar '\n' (joinNlL ls) = ls := by
  intro ls
  induction ls with
  | nil => intro h _; exact absurd rfl h
  | cons x xs ih =>
      intro _ hno
      cases xs with
      | nil =>
          simp only [joinNlL]
          exact splitOnChar_no_sep_self (hno x (List.mem_cons_self x []))
      | cons y ys =>
          simp only [joinNlL]
          rw [splitOnChar_append_cons (hno x (List.mem_cons_self x (y :: ys)))]
          rw [show joinNlL (y :: ys) = joinNlL (y :: ys) from rfl] at *
          have := ih (by simp) (fun z hz => hno z (List.mem_cons_of_mem x hz))
          simp only [joinNlL] at this
          rw [this]

theorem ansiStripGo_id : ∀ (fuel : Nat) (s : List Char),
    (∀ c ∈ s, ¬(c = '\x1b' ∨ c = '\x9b')) → ansiStripGo fuel s = s := by
  intro fuel
  induction fuel with
  | zero => intro s _; rfl
  | succ fuel ih =>
      intro s hs
      cases s with
      | nil => rfl
      | cons c rest =>
          have hc := hs c (List.mem_cons_self c rest)
          simp only [ansiStripGo]
          rw [if_neg (by simpa using hc)]
          rw [ih rest (fun d hd => hs d (List.mem_cons_of_mem c hd))]

theorem ansiStripL_id {s : List Char} (h : ∀ c ∈ s, ¬(c = '\x1b' ∨ c = '\x9b')) :
    ansiStripL s = s :=
  ansiStripGo_id s.length s h

theorem crToNlL_id : ∀ {s : List Char}, '\r' ∉ s → crToNlL s = s := by
  intro s
  induction s with
  | nil => intro _; rfl
  | cons c rest ih =>
      intro h
      have hc : ¬c = '\r' := fun hc => h (hc ▸ List.mem_cons_self c rest)
      have hrest : '\r' ∉ rest := fun hm => h (List.mem_cons_of_mem c hm)
      cases rest with
      | nil => simp [crToNlL, hc]
      | cons c2 rest2 =>
          simp only [crToNlL]
          rw [if_neg hc, ih hrest]

theorem stripTimestampL_subset {c : Char} {l : List Char}
    (h : c ∈ stripTimestampL l) : c ∈ l := by
  unfold stripTimestampL at h
  split at h
  · exact List.mem_of_mem_drop h
  · exact h

theorem crToNlL_subset : ∀ {c : Char} {l : List Char}, '\r' ∉ l →
    c ∈ crToNlL l → c ∈ l := by
  intro c l h hm
  rw [crToNlL_id h] at hm
  exact hm

/-- Counterexample for C9: the cleaner is not idempotent.  A carriage
return between characters is rewritten to a newline after line-splitting,
so the single cleaned line of `a\rb` is split in two by a second clean. -/
theorem cleaner_not_idempotent :
    cleanLog (joinWith "\n" (cleanLog "a\rb")) ≠ cleanLog "a\rb" := by decide

/-- C9 (amended): the cleaner is idempotent on inputs with no carriage
returns and no ANSI-escape introducer bytes whose cleaned lines do not
begin with a timestamp; in general it is not idempotent. -/
theorem cleaner_idempotent_amended (x : String)
    (hcr : ∀ c ∈ x.data, c ≠ '\r')
    (hesc : ∀ c ∈ x.data, c ≠ '\x1b' ∧ c ≠ '\x9b')
    (hts : ∀ l ∈ cleanL x.data, stripTimestampL l = l) :
    cleanLog (joinWith "\n" (cleanLog x)) = cleanLog x := by
  have hprops : ∀ l ∈ cleanL x.data,
      ('\n' ∉ l) ∧ ('\r' ∉ l) ∧ (∀ c ∈ l, ¬(c = '\x1b' ∨ c = '\x9b')) ∧
      jsTrimL l = l ∧ 0 < l.length := by
    intro l hl
    rcases List.mem_filter.mp hl with ⟨hmap, hlen⟩
    rcases List.mem_map.mp hmap with ⟨l0, hl0, rfl⟩
    have hl0nl : '\n' ∉ l0 := splitOnChar_no_sep hl0
    have hl0sub : ∀ c ∈ l0, c ∈ x.data := fun c hc => splitOnChar_chars hl0 hc
    have hl0cr : '\r' ∉ l0 := fun hm => hcr '\r' (hl0sub _ hm) rfl
    have hl0esc : ∀ c ∈ l0, ¬(c = '\x1b' ∨ c = '\x9b') := by
      intro c hc hor
      rcases hor with h | h
      · exact (hesc c (hl0sub c hc)).1 h
      · exact (hesc c (hl0sub c hc)).2 h
    have hsub : ∀ c ∈ cleanLineL l0, c ∈ l0 := by
      intro c hc
      unfold cleanLineL at hc
      rw [ansiStripL_id hl0esc] at hc
      have hc2 := jsTrimL_subset hc
      have hscr : '\r' ∉ stripTimestampL l0 := fun hm => hl0cr (stripTimestampL_subset hm)
      have hc3 := crToNlL_subset hscr hc2
      exact stripTimestampL_subset hc3
    refine ⟨fun hm => hl0nl (hsub _ hm), fun hm => hl0cr (hsub _ hm),
            fun c hc => hl0esc c (hsub c hc), ?_, by simpa using hlen⟩
    show jsTrimL (cleanLineL l0) = cleanLineL l0
    unfold cleanLineL
    exact jsTrimL_idem _
  have hmap : (cleanL x.data).map cleanLineL = cleanL x.data := by
    conv_rhs => rw [← List.map_id (cleanL x.data)]
    apply List.map_congr_left
    intro l hl
    obtain ⟨hnl, hcr2, hesc2, htrim, hlen⟩ := hprops l hl
    show cleanLineL l = id l
    unfold cleanLineL
    rw [ansiStripL_id hesc2, hts l hl, crToNlL_id hcr2]
    simpa using htrim
  have key : cleanL (joinNlL (cleanL x.data)) = cleanL x.data := by
    by_cases hnil : cleanL x.data = []
    · rw [hnil]
      rfl
    · have hsplit := splitOnChar_joinNl (cleanL x.data) hnil (fun l hl => (hprops l hl).1)
      show ((splitOnChar '\n' (joinNlL (cleanL x.data))).map cleanLineL).filter
          (fun l => decide (0 < l.length)) = cleanL x.data
      rw [hsplit, hmap]
      exact List.filter_eq_self.mpr (fun l hl => by simpa using (hprops l hl).2.2.2.2)
  simp only [cleanLog]
  rw [joinWith_data, key]

/-- Witness for C9 (amended): a plain two-line log without carriage
returns, escapes or timestamps cleans to a fixed point. -/
theorem cleaner_idempotent_amended_witness :
    cleanLog (joinWith "\n" (cleanLog "npm install\n  build ok  ")) =
      cleanLog "npm install\n  build ok  " :=
  cleaner_idempotent_amended "npm install\n  build ok  " (by decide) (by decide) (by decide)

/-- The step list is strictly ordered with pairwise-disjoint inclusive
ranges, and every range lies within `[0, bound]`. -/
def StepsWithin (bound : Int) (l : List Step) : Prop :=
  List.Chain' (fun a b => a.endLine < b.startLine) l ∧
  ∀ s ∈ l, 0 ≤ s.startLine ∧ s.startLine ≤ s.endLine ∧ s.endLine ≤ bound

theorem StepsWithin_mono {b b' : Int} (hbb : b ≤ b') {l : List Step} (h : StepsWithin b l) :
    StepsWithin b' l :=
  ⟨h.1, fun s hs => ⟨(h.2 s hs).1, (h.2 s hs).2.1, le_trans (h.2 s hs).2.2 hbb⟩⟩

theorem StepsWithin_append_single {b b' : Int} {acc : List Step} {s : Step}
    (hacc : StepsWithin b acc) (hbb : b ≤ b')
    (h0 : 0 ≤ s.startLine) (h1 : s.startLine ≤ s.endLine) (h2 : s.endLine ≤ b')
    (hlink : ∀ a, acc.getLast? = some a → a.endLine < s.startLine) :
    StepsWithin b' (acc ++ [s]) := by
  constructor
  · rw [List.chain'_append]
    refine ⟨hacc.1, List.chain'_singleton s, ?_⟩
    intro a ha y hy
    have hys : s = y := by simpa using hy
    subst hys
    exact hlink a (by simpa using ha)
  · intro t ht
    rcases List.mem_append.mp ht with hm | hm
    · have := hacc.2 t hm
      exact ⟨this.1, this.2.1, le_trans this.2.2 hbb⟩
    · rcases List.mem_singleton.mp hm with rfl
      exact ⟨h0, h1, h2⟩

theorem getLast?_mem_list {l : List Step} {a : Step} (h : l.getLast? = some a) : a ∈ l := by
  rcases List.mem_getLast?_eq_getLast (show a ∈ l.getLast? from h) with ⟨hne, heq⟩
  rw [heq]
  exact List.getLast_mem hne
theorem stepAct_inv (line : String) (i : Nat) (cur : Option Step) (acc : List Step)
    (hacc : StepsWithin ((i : Int) - 1) acc)
    (hcur : ∀ c, cur = some c → 0 ≤ c.startLine ∧ c.startLine ≤ (i : Int) - 1 ∧
      ∀ a, acc.getLast? = some a → a.endLine < c.startLine) :
    StepsWithin (i : Int) (acc ++ (stepAct line i cur).2) ∧
    ∀ c2, (stepAct line i cur).1 = some c2 → 0 ≤ c2.startLine ∧ c2.startLine ≤ (i : Int) ∧
      ∀ a, (acc ++ (stepAct line i cur).2).getLast? = some a → a.endLine < c2.startLine := by
  have hlastacc : ∀ a, acc.getLast? = some a → a.endLine ≤ (i : Int) - 1 := by
    intro a ha
    exact (hacc.2 a (getLast?_mem_list ha)).2.2
  cases hlf : lfCapture line with
  | some path =>
      cases cur with
      | some c =>
          obtain ⟨h0, h1, hlink⟩ := hcur c rfl
          have hact : stepAct line i (some c) =
              (some ⟨lfStepName path, (i : Int), (i : Int), true⟩,
               [{ c with endLine := (i : Int) - 1 }]) := by
            simp [stepAct, hlf]
          simp only [hact]
          constructor
          · refine StepsWithin_append_single hacc (by omega) h0 h1 ?_ hlink
            show (i : Int) - 1 ≤ (i : Int)
            omega
          · intro c2 hc2
            injection hc2 with hc2
            subst hc2
            refine ⟨?_, ?_, ?_⟩
            · show (0 : Int) ≤ (i : Int)
              omega
            · show (i : Int) ≤ (i : Int)
              omega
            · intro a ha
              rw [List.getLast?_concat] at ha
              injection ha with ha
              subst ha
              show (i : Int) - 1 < (i : Int)
              omega
      | none =>
          have hact : stepAct line i none =
              (some ⟨lfStepName path, (i : Int), (i : Int), true⟩, ([] : List Step)) := by
            simp [stepAct, hlf]
          simp only [hact]
          constructor
          · simpa using StepsWithin_mono (show (i : Int) - 1 ≤ (i : Int) by omega) hacc
          · intro c2 hc2
            injection hc2 with hc2
            subst hc2
            refine ⟨?_, ?_, ?_⟩
            · show (0 : Int) ≤ (i : Int)
              omega
            · show (i : Int) ≤ (i : Int)
              omega
            · intro a ha
              simp only [List.append_nil] at ha
              have := hlastacc a ha
              show a.endLine < (i : Int)
              omega
  | none =>
  cases hgs : groupStartCapture line with
  | some g =>
      cases cur with
      | some c =>
          obtain ⟨h0, h1, hlink⟩ := hcur c rfl
          by_cases hff : c.isFromLogFile = true
          · have hact : stepAct line i (some c) = (some c, ([] : List Step)) := by
              simp [stepAct, hlf, hgs, hff]
            simp only [hact]
            constructor
            · simpa using StepsWithin_mono (show (i : Int) - 1 ≤ (i : Int) by omega) hacc
            · intro c2 hc2
              injection hc2 with hc2
              subst hc2
              refine ⟨h0, by omega, ?_⟩
              intro a ha
              simp only [List.append_nil] at ha
              exact hlink a ha
          · have hact : stepAct line i (some c) =
                (some ⟨String.mk (jsTrimL g), (i : Int), (i : Int), false⟩,
                 [{ c with endLine := (i : Int) - 1 }]) := by
              simp [stepAct, hlf, hgs, hff]
            simp only [hact]
            constructor
            · refine StepsWithin_append_single hacc (by omega) h0 h1 ?_ hlink
              show (i : Int) - 1 ≤ (i : Int)
              omega
            · intro c2 hc2
              injection hc2 with hc2
              subst hc2
              refine ⟨?_, ?_, ?_⟩
              · show (0 : Int) ≤ (i : Int)
                omega
              · show (i : Int) ≤ (i : Int)
                omega
              · intro a ha
                rw [List.getLast?_concat] at ha
                injection ha with ha
                subst ha
                show (i : Int) - 1 < (i : Int)
                omega
      | none =>
          have hact : stepAct line i none =
              (some ⟨String.mk (jsTrimL g), (i : Int), (i : Int), false⟩, ([] : List Step)) := by
            simp [stepAct, hlf, hgs]
          simp only [hact]
          constructor
          · simpa using StepsWithin_mono (show (i : Int) - 1 ≤ (i : Int) by omega) hacc
          · intro c2 hc2
            injection hc2 with hc2
            subst hc2
            refine ⟨?_, ?_, ?_⟩
            · show (0 : Int) ≤ (i : Int)
              omega
            · show (i : Int) ≤ (i : Int)
              omega
            · intro a ha
              simp only [List.append_nil] at ha
              have := hlastacc a ha
              show a.endLine < (i : Int)
              omega
  | none =>
  cases cur with
  | some c =>
      obtain ⟨h0, h1, hlink⟩ := hcur c rfl
      by_cases hge : (isGroupEnd line && !c.isFromLogFile) = true
      · have hact : stepAct line i (some c) =
            ((none : Option Step), [{ c with endLine := (i : Int) }]) := by
          simp [stepAct, hlf, hgs, hge]
        simp only [hact]
        constructor
        · refine StepsWithin_append_single hacc (by omega) h0 ?_ ?_ hlink
          · show c.startLine ≤ (i : Int)
            omega
          · show (i : Int) ≤ (i : Int)
            omega
        · intro c2 hc2
          exact Option.noConfusion hc2
      · have hact : stepAct line i (some c) = (some c, ([] : List Step)) := by
          simp only [stepAct, hlf, hgs]
          rw [if_neg hge]
        simp only [hact]
        constructor
        · simpa using StepsWithin_mono (show (i : Int) - 1 ≤ (i : Int) by omega) hacc
        · intro c2 hc2
          injection hc2 with hc2
          subst hc2
          refine ⟨h0, by omega, ?_⟩
          intro a ha
          simp only [List.append_nil] at ha
          exact hlink a ha
  | none =>
  cases hrun : runCapture line with
  | some cap =>
      have hact : stepAct line i none =
          (some ⟨"Run: " ++ strTake 50 (String.mk cap) ++ "...", (i : Int), (i : Int), false⟩,
           ([] : List Step)) := by
        simp [stepAct, hlf, hgs, hrun]
      simp only [hact]
      constructor
      · simpa using StepsWithin_mono (show (i : Int) - 1 ≤ (i : Int) by omega) hacc
      · intro c2 hc2
        injection hc2 with hc2
        subst hc2
        refine ⟨?_, ?_, ?_⟩
        · show (0 : Int) ≤ (i : Int)
          omega
        · show (i : Int) ≤ (i : Int)
          omega
        · intro a ha
          simp only [List.append_nil] at ha
          have := hlastacc a ha
          show a.endLine < (i : Int)
          omega
  | none =>
  cases hpost : postCapture line with
  | some cap =>
      have hact : stepAct line i none =
          (some ⟨"Post: " ++ String.mk cap, (i : Int), (i : Int), false⟩, ([] : List Step)) := by
        simp [stepAct, hlf, hgs, hrun, hpost]
      simp only [hact]
      constructor
      · simpa using StepsWithin_mono (show (i : Int) - 1 ≤ (i : Int) by omega) hacc
      · intro c2 hc2
        injection hc2 with hc2
        subst hc2
        refine ⟨?_, ?_, ?_⟩
        · show (0 : Int) ≤ (i : Int)
          omega
        · show (i : Int) ≤ (i : Int)
          omega
        · intro a ha
          simp only [List.append_nil] at ha
          have := hlastacc a ha
          show a.endLine < (i : Int)
          omega
  | none =>
      have hact : stepAct line i none = ((none : Option Step), ([] : List Step)) := by
        simp [stepAct, hlf, hgs, hrun, hpost]
      simp only [hact]
      constructor
      · simpa using StepsWithin_mono (show (i : Int) - 1 ≤ (i : Int) by omega) hacc
      · intro c2 hc2
        exact Option.noConfusion hc2

theorem stepLoop_within (total : Nat) :
    ∀ (rest : List String) (i : Nat) (cur : Option Step) (acc : List Step),
      i + rest.length = total →
      StepsWithin ((i : Int) - 1) acc →
      (∀ c, cur = some c → 0 ≤ c.startLine ∧ c.startLine ≤ (i : Int) - 1 ∧
        ∀ a, acc.getLast? = some a → a.endLine < c.startLine) →
      StepsWithin ((total : Int) - 1) (stepLoop total rest i cur acc) := by
  intro rest
  induction rest with
  | nil =>
      intro i cur acc hlen hacc hcur
      have hi : i = total := by simpa using hlen
      subst hi
      cases cur with
      | none => simpa [stepLoop] using hacc
      | some c =>
          obtain ⟨h0, h1, hlink⟩ := hcur c rfl
          simp only [stepLoop]
          exact StepsWithin_append_single hacc le_rfl h0 h1 (le_refl _) hlink
  | cons line rest ih =>
      intro i cur acc hlen hacc hcur
      simp only [stepLoop]
      obtain ⟨hacc2, hcur2⟩ := stepAct_inv line i cur acc hacc hcur
      have hb : ((i + 1 : Nat) : Int) - 1 = (i : Int) := by push_cast; ring
      refine ih (i + 1) _ _ (by simp at hlen ⊢; omega) ?_ ?_
      · rw [hb]
        exact hacc2
      · rw [hb]
        exact hcur2

/-- Counterexample for C3: the step ranges do not cover the input.  On
`["hello", "Run npm test"]` the single detected step covers only line 1;
line 0 lies in no step's range. -/
theorem step_ranges_not_covering :
    detectSteps ["hello", "Run npm test"] =
      [{ name := "Run: npm test...", startLine := 1, endLine := 1 }] ∧
    ¬(∀ i : Fin 2, ∃ s ∈ detectSteps ["hello", "Run npm test"],
        s.startLine ≤ (i : Int) ∧ (i : Int) ≤ s.endLine) := by
  constructor
  · decide
  · decide

/-- C3 (amended): for every nonempty cleaned line sequence, the detected
steps form a nonempty ordered sequence of records whose inclusive ranges
are pairwise disjoint (each step ends strictly before the next begins) and
lie within 0..L−1; coverage of every line does not hold in general (lines
before the first marker, or between a closed group and the next marker,
belong to no step). -/
theorem step_ranges_ordered (lines : List String) (h : lines ≠ []) :
    detectSteps lines ≠ [] ∧
    List.Chain' (fun a b => a.endLine < b.startLine) (detectSteps lines) ∧
    ∀ s ∈ detectSteps lines, 0 ≤ s.startLine ∧ s.startLine ≤ s.endLine ∧
      s.endLine ≤ (lines.length : Int) - 1 := by
  have hinv := stepLoop_within lines.length lines 0 none [] (by simp)
      ⟨List.chain'_nil, by simp⟩ (fun c hc => Option.noConfusion hc)
  have hL : (1 : Int) ≤ (lines.length : Int) := by
    have := List.length_pos.mpr h
    omega
  by_cases hemp : (stepLoop lines.length lines 0 none []).isEmpty = true
  · have hds : detectSteps lines =
        [{ name := "Full Log", startLine := 0, endLine := (lines.length : Int) - 1 }] := by
      simp only [detectSteps]
      rw [if_pos hemp]
    rw [hds]
    refine ⟨by simp, List.chain'_singleton _, ?_⟩
    intro s hs
    rcases List.mem_singleton.mp hs with rfl
    refine ⟨le_refl _, ?_, le_refl _⟩
    show (0 : Int) ≤ (lines.length : Int) - 1
    omega
  · have hds : detectSteps lines = stepLoop lines.length lines 0 none [] := by
      simp only [detectSteps]
      rw [if_neg hemp]
    rw [hds]
    refine ⟨?_, hinv.1, hinv.2⟩
    intro hnil
    rw [hnil] at hemp
    simp at hemp

/-- Witness for C3 (amended): a three-line grouped log yields one step with
an in-bounds, ordered range. -/
theorem step_ranges_ordered_witness :
    detectSteps ["##[group]build", "stuff", "##[endgroup]"] ≠ [] ∧
    List.Chain' (fun a b => a.endLine < b.startLine)
      (detectSteps ["##[group]build", "stuff", "##[endgroup]"]) ∧
    ∀ s ∈ detectSteps ["##[group]build", "stuff", "##[endgroup]"],
      0 ≤ s.startLine ∧ s.startLine ≤ s.endLine ∧
      s.endLine ≤ ((["##[group]build", "stuff", "##[endgroup]"] : List String).length : Int) - 1 :=
  step_ranges_ordered _ (by decide)

end CICD
